import Mathlib

/-!
# Verification of the tetra-pei library (AT transport and SDS codec/stack)

Shallow embedding of the Go sources of `ftl/tetra-pei` into Lean.
Go strings are modelled as lists of byte values (`List Nat`, each element
`< 256`); Go `[]byte` likewise.  Go `int` arithmetic is modelled on `Int`
with truncated division (`Int.tdiv` / `Int.tmod`), matching Go's `/` and
`%`; conversions to `byte` reduce modulo 256.  Fallible Go functions are
modelled with `Except`-like result types; Go runtime panics (index out of
range, division by zero) are modelled with an explicit `panic` result
constructor.
-/

namespace TetraPei

/-- Byte-list literal for an ASCII Lean string (Go strings are byte
sequences; for ASCII content the UTF-8 bytes are the code points). -/
def bstr (s : String) : List Nat := s.toList.map Char.toNat

/-- ASCII whitespace recognised by Go's `strings.TrimSpace` on ASCII input
(`\t`, `\n`, `\v`, `\f`, `\r`, space).  The full Go predicate also trims a
handful of non-ASCII Unicode spaces; all inputs considered here are ASCII. -/
def isSpaceByte (b : Nat) : Bool :=
  b == 9 || b == 10 || b == 11 || b == 12 || b == 13 || b == 32

/-- `strings.TrimSpace` on ASCII byte strings: drop whitespace from both ends. -/
def goTrimSpace (l : List Nat) : List Nat :=
  ((l.dropWhile isSpaceByte).reverse.dropWhile isSpaceByte).reverse

/-- `strings.ToUpper` on ASCII byte strings: map `a..z` to `A..Z`. -/
def goToUpper (l : List Nat) : List Nat :=
  l.map (fun b => if 97 ≤ b ∧ b ≤ 122 then b - 32 else b)

/-- `strings.HasPrefix` on byte strings. -/
def goHasPrefix (l p : List Nat) : Bool := p.isPrefixOf l

/-!
## Line reader (`com/com.go`, `readLoop`)

`readLoop` drains the byte stream into a channel of lines: bytes are
accumulated into `currentLine`; on `'\n'` the accumulated line is emitted
when non-empty; other bytes `< 0x20` are discarded; at end-of-stream or on
a read error the final partial line is emitted when non-empty and the
channel is closed.  We model the whole stream as one byte list (both
stream endings behave identically) and the emitted channel as the
resulting list of lines.
-/

/-- The `readLoop` byte-processing loop of `com/com.go`: `cur` is the
`currentLine` accumulator. -/
def readLoopFrom (input : List Nat) (cur : List Nat) : List (List Nat) :=
  match input with
  | [] => if cur = [] then [] else [cur]
  | b :: rest =>
    if b = 10 then
      if cur = [] then readLoopFrom rest []
      else cur :: readLoopFrom rest []
    else if b < 32 then readLoopFrom rest cur
    else readLoopFrom rest (cur ++ [b])

/-- The complete line sequence `readLoop` emits for a byte stream. -/
def readLoopLines (input : List Nat) : List (List Nat) :=
  readLoopFrom input []

/-- Split a byte list into its maximal runs bounded by `'\n'` (byte 10):
the separators are dropped and every boundary produces a run, so empty
runs mark adjacent/leading/trailing separators. -/
def splitRuns (l : List Nat) : List (List Nat) :=
  match l with
  | [] => [[]]
  | b :: rest =>
    if b = 10 then [] :: splitRuns rest
    else
      match splitRuns rest with
      | [] => [[b]]
      | r :: rs => (b :: r) :: rs

/-- Modelled from the spec: "the emitted line stream ... has cardinality
equal to the number of non-empty maximal runs bounded by `\n` in the input
after stripping `< 0x20` except `\n`", each line being the corresponding
run.  Strip sub-space control bytes other than `'\n'`, split into maximal
`'\n'`-bounded runs, and drop the empty runs. -/
def linesSpec (input : List Nat) : List (List Nat) :=
  (splitRuns (input.filter (fun b => b = 10 || !(b < 32)))).filter (· ≠ [])

theorem splitRuns_ne_nil (l : List Nat) : splitRuns l ≠ [] := by
  match l with
  | [] => simp [splitRuns]
  | b :: rest =>
    unfold splitRuns
    split
    · simp
    · match h : splitRuns rest with
      | [] => simp
      | r :: rs => simp

theorem splitRuns_cons_of_ne (b : Nat) (rest r : List Nat)
    (rs : List (List Nat)) (hb : b ≠ 10) (hsp : splitRuns rest = r :: rs) :
    splitRuns (b :: rest) = (b :: r) :: rs := by
  unfold splitRuns
  rw [if_neg hb, hsp]

theorem splitRuns_dest (l : List Nat) :
    ∃ r rs, splitRuns l = r :: rs := by
  match h : splitRuns l with
  | [] => exact absurd h (splitRuns_ne_nil l)
  | r :: rs => exact ⟨r, rs, rfl⟩

theorem splitRuns_no_sep (l : List Nat) (h : ∀ b ∈ l, b ≠ 10) :
    splitRuns l = [l] := by
  induction l with
  | nil => rfl
  | cons b rest ih =>
    unfold splitRuns
    rw [if_neg (h b (by simp))]
    rw [ih (fun x hx => h x (by simp [hx]))]

theorem splitRuns_append_sep (cur t : List Nat) (h : ∀ b ∈ cur, b ≠ 10) :
    splitRuns (cur ++ 10 :: t) = cur :: splitRuns t := by
  induction cur with
  | nil => simp [splitRuns]
  | cons c cs ih =>
    have hc : c ≠ 10 := h c (by simp)
    rw [List.cons_append,
      splitRuns_cons_of_ne c _ cs (splitRuns t) hc
        (ih (fun x hx => h x (by simp [hx])))]

theorem readLoopFrom_eq (input : List Nat) :
    ∀ cur, (∀ b ∈ cur, ¬ b < 32) →
    readLoopFrom input cur =
      (splitRuns (cur ++ input.filter (fun b => b = 10 || !(b < 32)))).filter
        (· ≠ []) := by
  induction input with
  | nil =>
    intro cur hcur
    have : ∀ b ∈ cur, b ≠ 10 := by
      intro b hb heq
      exact hcur b hb (by omega)
    simp only [readLoopFrom, List.filter_nil, List.append_nil,
      splitRuns_no_sep cur this]
    by_cases h : cur = []
    · simp [h]
    · simp [h, List.filter]
  | cons b rest ih =>
    intro cur hcur
    have hno10 : ∀ x ∈ cur, x ≠ 10 := by
      intro x hx heq
      exact hcur x hx (by omega)
    unfold readLoopFrom
    by_cases hb : b = 10
    · subst hb
      simp only [if_pos rfl]
      have hfil : (10 :: rest).filter (fun b => b = 10 || !(b < 32)) =
          10 :: rest.filter (fun b => b = 10 || !(b < 32)) := by
        simp [List.filter]
      rw [hfil, splitRuns_append_sep cur _ hno10]
      by_cases h : cur = []
      · subst h
        simpa using ih [] (by simp)
      · rw [ih [] (by simp)]
        simp [List.filter, h]
    · rw [if_neg hb]
      by_cases hlt : b < 32
      · rw [if_pos hlt]
        have hfil : (b :: rest).filter (fun x => x = 10 || !(x < 32)) =
            rest.filter (fun x => x = 10 || !(x < 32)) := by
          simp [List.filter, hb, hlt]
        rw [hfil]
        exact ih cur hcur
      · rw [if_neg hlt]
        have hfil : (b :: rest).filter (fun x => x = 10 || !(x < 32)) =
            b :: rest.filter (fun x => x = 10 || !(x < 32)) := by
          simp [List.filter, hlt]
        rw [hfil]
        have hcur' : ∀ x ∈ cur ++ [b], ¬ x < 32 := by
          intro x hx
          rcases List.mem_append.1 hx with h | h
          · exact hcur x h
          · simp at h; omega
        rw [ih (cur ++ [b]) hcur']
        rw [List.append_assoc]
        rfl

/-- The by-run formulation: each emitted line is the corresponding maximal
`'\n'`-bounded run of the raw input with its sub-space control bytes
removed, empty results dropped. -/
theorem splitRuns_filter_comm (l : List Nat) :
    splitRuns (l.filter (fun b => b = 10 || !(b < 32))) =
      (splitRuns l).map (List.filter (fun b => !(b < 32))) := by
  induction l with
  | nil => rfl
  | cons b rest ih =>
    obtain ⟨r, rs, hsp⟩ := splitRuns_dest rest
    by_cases hb : b = 10
    · subst hb
      have hf : (10 :: rest).filter (fun x => x = 10 || !(x < 32)) =
          10 :: rest.filter (fun x => x = 10 || !(x < 32)) := by
        simp [List.filter]
      rw [hf]
      show [] :: splitRuns (rest.filter fun x => x = 10 || !(x < 32)) =
        ([] :: splitRuns rest).map (List.filter (fun x : Nat => !(x < 32)))
      rw [List.map_cons, ih]
      rfl
    · by_cases hlt : b < 32
      · have hf : (b :: rest).filter (fun x => x = 10 || !(x < 32)) =
            rest.filter (fun x => x = 10 || !(x < 32)) := by
          simp [List.filter, hb, hlt]
        rw [hf, ih, splitRuns_cons_of_ne b rest r rs hb hsp, hsp,
          List.map_cons, List.map_cons]
        have hbr : (b :: r).filter (fun x : Nat => !(x < 32)) =
            r.filter (fun x : Nat => !(x < 32)) := by
          simp [List.filter, hlt]
        rw [hbr]
      · obtain ⟨r', rs', hsp'⟩ :=
          splitRuns_dest (rest.filter (fun x => x = 10 || !(x < 32)))
        have hmap := ih
        rw [hsp, hsp', List.map_cons] at hmap
        have hf : (b :: rest).filter (fun x => x = 10 || !(x < 32)) =
            b :: rest.filter (fun x => x = 10 || !(x < 32)) := by
          simp [List.filter, hlt]
        rw [hf, splitRuns_cons_of_ne b _ r' rs' hb hsp',
          splitRuns_cons_of_ne b rest r rs hb hsp, List.map_cons]
        have hbr : (b :: r).filter (fun x : Nat => !(x < 32)) =
            b :: r.filter (fun x : Nat => !(x < 32)) := by
          simp [List.filter, hlt]
        rw [hbr, List.cons.injEq] at *
        exact ⟨by rw [← hmap.1], by rw [← hmap.2]⟩

/-- C2: the line reader emits exactly the non-empty maximal
`'\n'`-bounded runs of the input after stripping sub-space control bytes
other than `'\n'`, in input order; equivalently, each emitted line is the
corresponding non-empty stripped run, and no emitted line is empty. -/
theorem readLoop_lines_spec (input : List Nat) :
    readLoopLines input = linesSpec input ∧
    readLoopLines input =
      ((splitRuns input).map (List.filter (fun b => !(b < 32)))).filter
        (· ≠ []) ∧
    (∀ l ∈ readLoopLines input, l ≠ []) := by
  have h1 : readLoopLines input = linesSpec input := by
    unfold readLoopLines linesSpec
    have := readLoopFrom_eq input [] (by simp)
    simpa using this
  refine ⟨h1, ?_, ?_⟩
  · rw [h1]
    unfold linesSpec
    rw [splitRuns_filter_comm]
  · intro l hl
    rw [h1] at hl
    exact of_decide_eq_true (List.mem_filter.1 hl).2

/-!
## AT command response handling (`com/com.go`, `command.AddLine`)

A `command` accumulates non-terminator lines in `c.lines`; `AddLine`
first returns without effect when the command was cancelled or already
completed, then classifies the whitespace-trimmed, upper-cased line:
exactly `"OK"` resolves the command successfully with the accumulated
lines, an `"ERROR"`/`"+CME ERROR:"`/`"+CMS ERROR"` prefix resolves it
with an error carrying the original line verbatim, anything else is
appended to the accumulation buffer.  The buffered result channels
(capacity 1) and the closed `completed` channel are modelled as an
optional recorded disposition.
-/

/-- The disposition a command can receive: a successful response with the
accumulated lines, or an error carrying the terminating line verbatim. -/
inductive Disposition
  | response (lines : List (List Nat))
  | error (line : List Nat)
  deriving DecidableEq, Repr

/-- State of one in-flight `command`: the accumulated non-terminator
lines, the recorded disposition (none while unresolved), and whether the
command's cancellation channel has fired. -/
structure CmdState where
  lines : List (List Nat)
  result : Option Disposition
  cancelled : Bool
  deriving DecidableEq, Repr

/-- `command.AddLine` from `com/com.go`. -/
def addLine (c : CmdState) (line : List Nat) : CmdState :=
  if c.cancelled || c.result.isSome then c
  else
    let saniLine := goToUpper (goTrimSpace line)
    if saniLine = bstr "OK" then
      { c with result := some (.response c.lines) }
    else if goHasPrefix saniLine (bstr "ERROR") then
      { c with result := some (.error line) }
    else if goHasPrefix saniLine (bstr "+CME ERROR:") then
      { c with result := some (.error line) }
    else if goHasPrefix saniLine (bstr "+CMS ERROR") then
      { c with result := some (.error line) }
    else
      { c with lines := c.lines ++ [line] }

/-- C1: a line trimming/upper-casing to exactly `OK` resolves the command
successfully with precisely the accumulated lines; a line whose trimmed,
upper-cased form begins with `ERROR`, `+CME ERROR:` or `+CMS ERROR`
resolves it with an error carrying the original line verbatim; every
other line is appended to the accumulation buffer; and once resolved or
cancelled, subsequent lines change nothing, so a command receives at most
one disposition. -/
theorem addLine_dispositions (c : CmdState) (line : List Nat)
    (hp : c.result = none) (hc : c.cancelled = false) :
    (goToUpper (goTrimSpace line) = bstr "OK" →
      addLine c line = { c with result := some (.response c.lines) }) ∧
    ((goHasPrefix (goToUpper (goTrimSpace line)) (bstr "ERROR") = true ∨
      goHasPrefix (goToUpper (goTrimSpace line)) (bstr "+CME ERROR:") = true ∨
      goHasPrefix (goToUpper (goTrimSpace line)) (bstr "+CMS ERROR") = true) →
      addLine c line = { c with result := some (.error line) }) ∧
    (goToUpper (goTrimSpace line) ≠ bstr "OK" →
      goHasPrefix (goToUpper (goTrimSpace line)) (bstr "ERROR") = false →
      goHasPrefix (goToUpper (goTrimSpace line)) (bstr "+CME ERROR:") = false →
      goHasPrefix (goToUpper (goTrimSpace line)) (bstr "+CMS ERROR") = false →
      addLine c line = { c with lines := c.lines ++ [line] }) ∧
    (∀ c' : CmdState, ∀ ls : List (List Nat),
      (c'.result.isSome = true ∨ c'.cancelled = true) →
      List.foldl addLine c' ls = c') := by
  refine ⟨?_, ?_, ?_, ?_⟩
  · intro hok
    simp [addLine, hp, hc, hok]
  · intro herr
    have hnok : ¬ goToUpper (goTrimSpace line) = bstr "OK" := by
      intro hok
      rw [hok] at herr
      rcases herr with h | h | h <;> revert h <;> decide
    rcases herr with h | h | h <;>
      simp [addLine, hp, hc, hnok, h]
  · intro hnok h1 h2 h3
    simp [addLine, hp, hc, hnok, h1, h2, h3]
  · intro c' ls hdone
    have hid : ∀ l, addLine c' l = c' := by
      intro l
      unfold addLine
      rcases hdone with h | h <;> simp [h]
    induction ls with
    | nil => rfl
    | cons l ls ih => rw [List.foldl_cons, hid l]; exact ih

/-- Witness for `addLine_dispositions` at a concrete pending command and
the line `" ok "`. -/
theorem addLine_dispositions_witness :
    addLine ⟨[bstr "AB"], none, false⟩ (bstr " ok ") =
      ⟨[bstr "AB"], some (.response [bstr "AB"]), false⟩ :=
  (addLine_dispositions ⟨[bstr "AB"], none, false⟩ (bstr " ok ") rfl rfl).1
    (by decide)

/-!
## Hex codec (`tetra/tetra.go`) and numeric string parsing

`HexToBinary` removes all whitespace (the Go regexp `\s+`, i.e.
`[\t\n\f\r ]`) and decodes the remainder as hex digit pairs
(`hex.DecodeString`: odd length or a non-hex byte is an error).
`strconv.Atoi` accepts an optional sign followed by one or more decimal
digits (its `int64` range error is not modelled; all bit counts in scope
are small).
-/

/-- Value of one hex digit byte, `none` for a non-hex byte. -/
def hexDigitVal (b : Nat) : Option Nat :=
  if 48 ≤ b ∧ b ≤ 57 then some (b - 48)
  else if 97 ≤ b ∧ b ≤ 102 then some (b - 87)
  else if 65 ≤ b ∧ b ≤ 70 then some (b - 55)
  else none

/-- `hex.DecodeString` on a sanitized byte string: pairs of hex digits. -/
def decodeHexPairs (l : List Nat) : Except String (List Nat) :=
  match l with
  | [] => .ok []
  | [_] => .error "odd length hex string"
  | a :: b :: rest =>
    match hexDigitVal a, hexDigitVal b with
    | some hi, some lo =>
      match decodeHexPairs rest with
      | .ok bs => .ok ((hi * 16 + lo) :: bs)
      | .error e => .error e
    | _, _ => .error "invalid hex byte"

/-- `tetra.HexToBinary`: strip whitespace, then decode hex pairs. -/
def hexToBinary (s : List Nat) : Except String (List Nat) :=
  decodeHexPairs (s.filter
    (fun b => !(b = 9 || b = 10 || b = 12 || b = 13 || b = 32)))

/-- Decimal digit run to its value, `none` if empty or non-digit. -/
def decDigits (l : List Nat) : Option Nat :=
  if l = [] then none
  else if l.all (fun b => 48 ≤ b ∧ b ≤ 57) then
    some (l.foldl (fun acc b => acc * 10 + (b - 48)) 0)
  else none

/-- `strconv.Atoi`: optional `+`/`-` sign, then decimal digits. -/
def goAtoi (l : List Nat) : Option Int :=
  match l with
  | 43 :: rest => (decDigits rest).map Int.ofNat
  | 45 :: rest => (decDigits rest).map (fun n => -(n : Int))
  | _ => (decDigits l).map Int.ofNat

/-!
## `+CTSDSR:` header parsing (`sds/sds.go`, `ParseHeader`, `Header.PDUBytes`)
-/

/-- The `+CTSDSR:` header: AI service, optional source identity,
destination identity, and the PDU length in bits (a Go `int`). -/
structure Header where
  AIService : List Nat
  Source : List Nat
  Destination : List Nat
  PDUBits : Int
  deriving DecidableEq, Repr

/-- The field-count switch of `ParseHeader`: dispatch on the number of
comma-separated fields (3, 4, 6 or 7) and parse the designated bit-count
field base-10.  Field values are whitespace-trimmed; the 7th field (the
end-to-end encryption flag) is ignored. -/
def parseHeaderFields (fields : List (List Nat)) : Except String Header :=
  let finish := fun (ai src dst : List Nat) (bitField : List Nat) =>
    match goAtoi (goTrimSpace bitField) with
    | some n => Except.ok (Header.mk ai src dst n)
    | none => Except.error "invalid PDU bit count"
  match fields with
  | [f0, f1, f2] =>
    finish (goTrimSpace f0) [] (goTrimSpace f1) f2
  | [f0, f1, _, f3] =>
    finish (goTrimSpace f0) [] (goTrimSpace f1) f3
  | [f0, f1, _, f3, _, f5] =>
    finish (goTrimSpace f0) (goTrimSpace f1) (goTrimSpace f3) f5
  | [f0, f1, _, f3, _, f5, _] =>
    finish (goTrimSpace f0) (goTrimSpace f1) (goTrimSpace f3) f5
  | _ => .error "invalid header, wrong field count"

/-- `ParseHeader` from `sds/sds.go`: require the `+CTSDSR:` prefix, split
the remainder on commas, and dispatch on the field count. -/
def parseHeader (s : List Nat) : Except String Header :=
  if goHasPrefix s (bstr "+CTSDSR:") then
    parseHeaderFields ((s.drop 8).splitOn 44)
  else .error "invalid header, +CTSDSR expected"

/-- `Header.PDUBytes`: `PDUBits / 8`, plus one if `PDUBits % 8 ≠ 0`
(Go truncated integer division). -/
def Header.PDUBytes (h : Header) : Int :=
  if h.PDUBits.tmod 8 ≠ 0 then h.PDUBits.tdiv 8 + 1 else h.PDUBits.tdiv 8

/-- C4 (amended): `ParseHeader` errors exactly when the `+CTSDSR:` prefix
is missing, the comma-separated field count is outside `{3,4,6,7}`, or the
designated bit-count field is not a base-10 integer; on success the PDU
bit count is parsed base-10 from the field at index 2, 3, 5 and 5 for 3-,
4-, 6- and 7-field headers respectively — i.e. the last field except for
7-field headers, where it is the second-to-last. -/
theorem parseHeader_spec (s : List Nat) (fs : List (List Nat))
    (hfs : (s.drop 8).splitOn 44 = fs) :
    (goHasPrefix s (bstr "+CTSDSR:") = false →
      ∃ e, parseHeader s = .error e) ∧
    (goHasPrefix s (bstr "+CTSDSR:") = true →
      (¬(fs.length = 3 ∨ fs.length = 4 ∨ fs.length = 6 ∨ fs.length = 7) →
        ∃ e, parseHeader s = .error e) ∧
      ((fs.length = 3 ∨ fs.length = 4 ∨ fs.length = 6 ∨ fs.length = 7) →
        (goAtoi (goTrimSpace
            (fs.getD (if fs.length = 7 then 5 else fs.length - 1) [])) =
              none →
          ∃ e, parseHeader s = .error e) ∧
        (∀ n, goAtoi (goTrimSpace
            (fs.getD (if fs.length = 7 then 5 else fs.length - 1) [])) =
              some n →
          ∃ h, parseHeader s = .ok h ∧ h.PDUBits = n))) := by
  constructor
  · intro hpre
    exact ⟨"invalid header, +CTSDSR expected", by simp [parseHeader, hpre]⟩
  · intro hpre
    have hph : parseHeader s = parseHeaderFields fs := by
      simp [parseHeader, hpre, hfs]
    rw [hph]
    match fs with
    | [f0, f1, f2] =>
      refine ⟨by simp, fun _ => ⟨?_, ?_⟩⟩
      · intro hnone
        simp only [List.length_cons, List.length_nil, List.getD] at hnone
        norm_num at hnone
        exact ⟨"invalid PDU bit count", by simp [parseHeaderFields, hnone]⟩
      · intro n hn
        simp only [List.length_cons, List.length_nil, List.getD] at hn
        norm_num at hn
        exact ⟨⟨goTrimSpace f0, [], goTrimSpace f1, n⟩,
          by simp [parseHeaderFields, hn], rfl⟩
    | [f0, f1, g, f3] =>
      refine ⟨by simp, fun _ => ⟨?_, ?_⟩⟩
      · intro hnone
        simp only [List.length_cons, List.length_nil, List.getD] at hnone
        norm_num at hnone
        exact ⟨"invalid PDU bit count", by simp [parseHeaderFields, hnone]⟩
      · intro n hn
        simp only [List.length_cons, List.length_nil, List.getD] at hn
        norm_num at hn
        exact ⟨⟨goTrimSpace f0, [], goTrimSpace f1, n⟩,
          by simp [parseHeaderFields, hn], rfl⟩
    | [f0, f1, g, f3, g2, f5] =>
      refine ⟨by simp, fun _ => ⟨?_, ?_⟩⟩
      · intro hnone
        simp only [List.length_cons, List.length_nil, List.getD] at hnone
        norm_num at hnone
        exact ⟨"invalid PDU bit count", by simp [parseHeaderFields, hnone]⟩
      · intro n hn
        simp only [List.length_cons, List.length_nil, List.getD] at hn
        norm_num at hn
        exact ⟨⟨goTrimSpace f0, goTrimSpace f1, goTrimSpace f3, n⟩,
          by simp [parseHeaderFields, hn], rfl⟩
    | [f0, f1, g, f3, g2, f5, g3] =>
      refine ⟨by simp, fun _ => ⟨?_, ?_⟩⟩
      · intro hnone
        simp only [List.length_cons, List.length_nil, List.getD] at hnone
        norm_num at hnone
        exact ⟨"invalid PDU bit count", by simp [parseHeaderFields, hnone]⟩
      · intro n hn
        simp only [List.length_cons, List.length_nil, List.getD] at hn
        norm_num at hn
        exact ⟨⟨goTrimSpace f0, goTrimSpace f1, goTrimSpace f3, n⟩,
          by simp [parseHeaderFields, hn], rfl⟩
    | [] =>
      exact ⟨fun _ => ⟨"invalid header, wrong field count",
        by simp [parseHeaderFields]⟩, by simp⟩
    | [g] =>
      exact ⟨fun _ => ⟨"invalid header, wrong field count",
        by simp [parseHeaderFields]⟩, by simp⟩
    | [g, g1] =>
      exact ⟨fun _ => ⟨"invalid header, wrong field count",
        by simp [parseHeaderFields]⟩, by simp⟩
    | [g, g1, g2, g3, g4] =>
      exact ⟨fun _ => ⟨"invalid header, wrong field count",
        by simp [parseHeaderFields]⟩, by simp⟩
    | g :: g1 :: g2 :: g3 :: g4 :: g5 :: g6 :: g7 :: rest =>
      exact ⟨fun _ => ⟨"invalid header, wrong field count",
        by simp [parseHeaderFields]⟩, by simp⟩

/-- Witness for `parseHeader_spec` at a concrete 6-field header. -/
theorem parseHeader_spec_witness :
    ∃ h, parseHeader (bstr "+CTSDSR: 12,1001,1,2001,1,16") = .ok h ∧
      h.PDUBits = 16 :=
  (((parseHeader_spec (bstr "+CTSDSR: 12,1001,1,2001,1,16") _ rfl).2
    (by decide)).2 (by decide)).2 16 (by decide)

/-- C4 counterexample: for a 7-field header the bit count is taken from
the 6th field, not the last; the last field (the end-to-end encryption
flag) parses to 0, yet the parsed `PDUBits` is 16. -/
theorem parseHeader_last_field_counterexample :
    parseHeader (bstr "+CTSDSR: 12,1001,1,2001,1,16,0") =
      .ok ⟨bstr "12", bstr "1001", bstr "2001", 16⟩ ∧
    goAtoi (goTrimSpace
      ((((bstr "+CTSDSR: 12,1001,1,2001,1,16,0").drop 8).splitOn
        44).getLastD [])) = some 0 :=
  ⟨by rfl, by decide⟩

/-!
## SDS PDU data model (`sds/sds.go`)

All multi-byte fields are `Nat` values of the indicated width; the Go
`interface{}` payloads become closed sums.  Decoded text is kept as the
raw payload bytes: the Go code routes them through the external
`golang.org/x/text` codecs, which are total for every codec the library
registers (unknown encodings fall back to ISO8859-1), and no claim in
scope depends on the decoded character content.
-/

/-- Result of a Go function returning `(T, error)`, with an explicit
constructor for runtime panics (index out of range, division by zero). -/
inductive GoResult (α : Type) where
  | ok (a : α)
  | err (msg : String)
  | panic (msg : String)
  deriving Repr

/-- Timestamp fields decoded by `DecodeTimestamp` ([AI] 29.5.4.4).  The Go
code materialises them as a `time.Time` in the current calendar year; we
keep the raw decoded fields (timeframe index, month, day, hour, minute). -/
structure GoTimestamp where
  timeframe : Nat
  month : Nat
  day : Nat
  hour : Nat
  minute : Nat
  deriving DecidableEq, Repr

/-- `TextHeader`: encoding id plus optional timestamp (Go's zero
`time.Time` is modelled as `none`). -/
structure TextHeader where
  encoding : Nat
  timestamp : Option GoTimestamp
  deriving DecidableEq, Repr

/-- `TextSDU`: text header plus the (undecoded) payload text bytes. -/
structure TextSDU where
  header : TextHeader
  text : List Nat
  deriving DecidableEq, Repr

/-- `ConcatenatedTextUDH` ([AI] table 29.48). -/
structure ConcatenatedTextUDH where
  headerLength : Nat
  elementID : Nat
  elementLength : Nat
  messageReference : Nat
  totalNumber : Nat
  sequenceNumber : Nat
  deriving DecidableEq, Repr

/-- `ConcatenatedTextSDU` ([AI] 29.5.10.3). -/
structure ConcatenatedTextSDU where
  textSDU : TextSDU
  userDataHeader : ConcatenatedTextUDH
  deriving DecidableEq, Repr

/-- `ConcatenatedSDSMessageSDU` ([AI] 29.5.14.12). -/
structure ConcatenatedSDSMessageSDU where
  concatenationReference : Nat
  totalNumber : Nat
  sequenceNumber : Nat
  payloadPID : Nat
  payloadData : List Nat
  deriving DecidableEq, Repr

/-- `CalloutAlert` (PID `0xC3`). -/
structure CalloutAlert where
  calloutNumber : Nat
  priority : Nat
  senderSubAddress : Nat
  receiverSubAddresses : List Nat
  text : List Nat
  deriving DecidableEq, Repr

/-- `StoreForwardControl`; `validityPeriod` is a Go `time.Duration` in
nanoseconds (`-1` = infinitely valid). -/
structure StoreForwardControl where
  valid : Bool
  validityPeriod : Int
  forwardAddressType : Nat
  forwardAddressSNA : Nat
  forwardAddressSSI : List Nat
  externalSubscriberNumber : List Nat
  deriving DecidableEq, Repr

/-- Go zero value of `StoreForwardControl`. -/
def StoreForwardControl.zero : StoreForwardControl :=
  ⟨false, 0, 0, 0, [0, 0, 0], []⟩

/-- The `interface{}` user data of an SDS-TRANSFER. -/
inductive TransferUserData where
  | text (t : TextSDU)
  | concatText (c : ConcatenatedTextSDU)
  | concatSDS (c : ConcatenatedSDSMessageSDU)
  | callout (c : CalloutAlert)
  deriving DecidableEq, Repr

/-- `SDSTransfer` ([AI] 29.4.2.4). -/
structure SDSTransfer where
  protocol : Nat
  deliveryReportRequest : Nat
  serviceSelectionShortFormReport : Bool
  messageReference : Nat
  storeForwardControl : StoreForwardControl
  userData : TransferUserData
  deriving DecidableEq, Repr

/-- `SDSReport` ([AI] 29.4.2.2). -/
structure SDSReport where
  protocol : Nat
  ackRequired : Bool
  deliveryStatus : Nat
  messageReference : Nat
  storeForwardControl : StoreForwardControl
  userData : List Nat
  deriving DecidableEq, Repr

/-- `SDSAcknowledge` ([AI] 29.4.2.1). -/
structure SDSAcknowledge where
  protocol : Nat
  deliveryStatus : Nat
  messageReference : Nat
  deriving DecidableEq, Repr

/-- `SDSShortReport` ([AI] 29.4.2.3). -/
structure SDSShortReport where
  reportType : Nat
  messageReference : Nat
  deriving DecidableEq, Repr

/-- `SimpleTextMessage` ([AI] 29.5.2.3). -/
structure SimpleTextMessage where
  protocol : Nat
  encoding : Nat
  text : List Nat
  deriving DecidableEq, Repr

/-- The `interface{}` payload of an `IncomingMessage`. -/
inductive Payload where
  | transfer (t : SDSTransfer)
  | report (r : SDSReport)
  | ack (a : SDSAcknowledge)
  | simpleText (m : SimpleTextMessage)
  | status (s : Nat)
  | shortReport (r : SDSShortReport)
  deriving DecidableEq, Repr

/-- `IncomingMessage`. -/
structure IncomingMessage where
  header : Header
  payload : Payload
  deriving DecidableEq, Repr

/-!
## SDS PDU parsers (`sds/sds.go`)
-/

/-- `ParseValidityPeriod` ([AI] table 29.25): 5-bit code to a
`time.Duration` in nanoseconds; code 31 is `InfinitelyValid = -1`. -/
def parseValidityPeriod (b : Nat) : Int :=
  if b = 0 then 0
  else if b ≤ 6 then (b : Int) * 10 * 1000000000
  else if b ≤ 10 then ((b : Int) - 5) * 60000000000
  else if b ≤ 16 then ((b : Int) - 10) * 10 * 60000000000
  else if b ≤ 21 then ((b : Int) - 15) * 3600000000000
  else if b ≤ 24 then ((b : Int) - 20) * 6 * 3600000000000
  else if b ≤ 30 then ((b : Int) - 24) * 48 * 3600000000000
  else -1

/-- `ParseStoreForwardControl`.  The external-subscriber-number branch of
the Go code builds its digit slice with `make(ExternalSubscriberNumber, 0, l)`
— length 0 — and immediately assigns `result.ExternalSubscriberNumber[d]`
inside the digit loop, so any digit count `l ≥ 1` (one or more packed BCD
bytes, `bl ≥ 1`) panics with an index-out-of-range error at the first
write; only `l = 0` completes, with an empty digit list. -/
def parseStoreForwardControl (bytes : List Nat) : GoResult StoreForwardControl :=
  match bytes with
  | [] => .err "store forward control too short"
  | b0 :: _ =>
    let base : StoreForwardControl :=
      { valid := true
        validityPeriod := parseValidityPeriod (b0 / 8)
        forwardAddressType := b0 % 4
        forwardAddressSNA := 0
        forwardAddressSSI := [0, 0, 0]
        externalSubscriberNumber := [] }
    if b0 % 4 = 0 then
      if bytes.length < 2 then .err "store forward control with SNA too short"
      else .ok { base with forwardAddressSNA := bytes.getD 1 0 }
    else if b0 % 4 = 1 then
      if bytes.length < 4 then .err "store forward control with SSI too short"
      else .ok { base with forwardAddressSSI := (bytes.drop 1).take 3 }
    else if b0 % 4 = 2 then
      if bytes.length < 4 then .err "store forward control with TSI too short"
      else .ok { base with forwardAddressSSI := (bytes.drop 1).take 3 }
    else
      if bytes.length < 2 then
        .err "store forward control with external subscriber number too short"
      else
        let l := bytes.getD 1 0
        let bl := l / 2 + (if l % 2 > 0 then 1 else 0)
        if bytes.length < 2 + bl then
          .err "store forward control with external subscriber number too short"
        else if 0 < bl then .panic "index out of range"
        else .ok base

/-- `StoreForwardControl.Length`. -/
def StoreForwardControl.length (s : StoreForwardControl) : Nat :=
  if s.forwardAddressType = 0 then 2
  else if s.forwardAddressType = 1 then 4
  else if s.forwardAddressType = 2 then 4
  else if s.forwardAddressType = 3 then
    2 + (s.externalSubscriberNumber.length / 2 +
      if s.externalSubscriberNumber.length % 2 > 0 then 1 else 0)
  else 1

/-- `DecodeTimestamp` ([AI] 29.5.4.4): the raw decoded fields.  (The Go
code materialises a `time.Time` in the current calendar year, with
timeframe 1 = UTC and the rest local.) -/
def decodeTimestamp (bytes : List Nat) : GoResult GoTimestamp :=
  if bytes.length ≠ 3 then .err "a timestamp must be 3 bytes long"
  else
    let b0 := bytes.getD 0 0
    let b1 := bytes.getD 1 0
    let b2 := bytes.getD 2 0
    .ok { timeframe := b0 / 64
          month := b0 % 16
          day := b1 / 8
          hour := (b1 % 8) * 4 + b2 / 64
          minute := b2 % 64 }

/-- `ParseTextHeader` (`sds/text.go`). -/
def parseTextHeader (bytes : List Nat) : GoResult TextHeader :=
  match bytes with
  | [] => .err "text header too short"
  | b0 :: _ =>
    let timestampUsed := 128 ≤ b0
    if timestampUsed ∧ bytes.length < 7 then
      .err "text header with timestamp too short"
    else if timestampUsed then
      match decodeTimestamp ((bytes.drop 1).take 3) with
      | .ok ts => .ok { encoding := b0 % 128, timestamp := some ts }
      | .err e => .err e
      | .panic e => .panic e
    else .ok { encoding := b0 % 128, timestamp := none }

/-- `TextHeader.Length`: 1 byte, or 4 with a timestamp. -/
def TextHeader.length (h : TextHeader) : Nat :=
  match h.timestamp with
  | none => 1
  | some _ => 4

/-- `DecodePayloadText`: the Go code maps the payload bytes through the
registered `golang.org/x/text` codec (ISO8859-1 as fallback), which is
total for every registered codec; we keep the raw bytes. -/
def decodePayloadText (textEncoding : Nat) (bytes : List Nat) : List Nat :=
  let _ := textEncoding
  bytes

/-- `ParseTextSDU`. -/
def parseTextSDU (bytes : List Nat) : GoResult TextSDU :=
  match parseTextHeader bytes with
  | .err e => .err e
  | .panic e => .panic e
  | .ok th =>
    .ok { header := th
          text := decodePayloadText th.encoding (bytes.drop th.length) }

/-- `ParseConcatenatedTextUDH` ([AI] table 29.48). -/
def parseConcatenatedTextUDH (bytes : List Nat) :
    GoResult ConcatenatedTextUDH :=
  if bytes.length < 6 then .err "concatenated text UDH too short"
  else
    let headerLength := bytes.getD 0 0
    let elementID := bytes.getD 1 0
    let elementLength := bytes.getD 2 0
    if elementID = 0 then
      if elementLength ≠ 3 then
        .err "UDH information element length invalid, expected 3"
      else
        .ok { headerLength := headerLength, elementID := elementID
              elementLength := elementLength
              messageReference := bytes.getD 3 0
              totalNumber := bytes.getD 4 0
              sequenceNumber := bytes.getD 5 0 }
    else
      if elementLength ≠ 4 then
        .err "UDH information element length invalid, expected 4"
      else if bytes.length < 7 then
        .err "concatenated text UDH with long reference too short"
      else
        .ok { headerLength := headerLength, elementID := elementID
              elementLength := elementLength
              messageReference := (bytes.getD 4 0) * 256 + bytes.getD 3 0
              totalNumber := bytes.getD 5 0
              sequenceNumber := bytes.getD 6 0 }

/-- `ConcatenatedTextUDH.Length`: 6 bytes, 7 with a long reference
(element id `0x08`). -/
def ConcatenatedTextUDH.length (h : ConcatenatedTextUDH) : Nat :=
  if h.elementID = 8 then 7 else 6

/-- `ParseConcatenatedTextSDU`. -/
def parseConcatenatedTextSDU (bytes : List Nat) :
    GoResult ConcatenatedTextSDU :=
  match parseTextHeader bytes with
  | .err e => .err e
  | .panic e => .panic e
  | .ok th =>
    match parseConcatenatedTextUDH (bytes.drop th.length) with
    | .err e => .err e
    | .panic e => .panic e
    | .ok udh =>
      .ok { textSDU :=
              { header := th
                text := decodePayloadText th.encoding
                  (bytes.drop (th.length + udh.length)) }
            userDataHeader := udh }

/-- `ParseConcatenatedSDSMessageSDU` (PID `0x8C`). -/
def parseConcatenatedSDSMessageSDU (bytes : List Nat) :
    GoResult ConcatenatedSDSMessageSDU :=
  match bytes with
  | [] => .err "data too short for concatenation control header"
  | ctrlByte :: _ =>
    if ctrlByte / 32 ≠ 0 then .err "unsupported PDU type"
    else
      let refExt := (ctrlByte / 16) % 2
      let afterRef : Nat × Nat := -- (reference, offset past the reference)
        if refExt = 1 then ((ctrlByte % 16) * 256 + bytes.getD 1 0, 2)
        else (ctrlByte % 16, 1)
      if refExt = 1 ∧ bytes.length < 2 then
        .err "missing reference extension byte"
      else
        let reference := afterRef.1
        let offset := afterRef.2
        if bytes.length < offset + 2 then
          .err "missing total number or sequence number"
        else
          let total := bytes.getD offset 0
          let seq := bytes.getD (offset + 1) 0
          if seq = 1 then
            if bytes.length < offset + 3 then .err "missing payload PID"
            else
              .ok { concatenationReference := reference
                    totalNumber := total, sequenceNumber := seq
                    payloadPID := bytes.getD (offset + 2) 0
                    payloadData := bytes.drop (offset + 3) }
          else
            .ok { concatenationReference := reference
                  totalNumber := total, sequenceNumber := seq
                  payloadPID := 0
                  payloadData := bytes.drop (offset + 2) }

/-- The callout-number accumulation loop of `ParseCalloutSDU`:
`calloutNumber` starts from the packed first byte and shifts in
`bytes[offset+i+1]` for `i = 1 .. lengthInBytes-1` (Go `uint32`
arithmetic, mod `2^32`). -/
def calloutNumberAcc (bytes : List Nat) (offset lengthInBytes firstByte : Nat) :
    Nat :=
  (List.range (lengthInBytes - 1)).foldl
    (fun cn i => (cn * 256 + bytes.getD (offset + i + 2) 0) % 4294967296)
    firstByte

/-- The TLV prologue loop of `ParseCalloutSDU`: consumes `0x0D` (callout
number) elements, updating the callout number and priority; any other
type field ends the loop.  With `lengthInBytes = 0` the packed first byte
still reads `bytes[offset+1]`, which panics when that index is out of
range. -/
def calloutTLVLoop (bytes : List Nat) (offset num pri : Nat) :
    GoResult (Nat × Nat × Nat) :=
  if h : offset < bytes.length then
    if bytes.getD offset 0 = 13 then
      let o1 := offset + 1
      if bytes.length ≤ o1 then .err "insufficient bytes for packed fields"
      else
        let packed := bytes.getD o1 0
        let lengthInBytes := packed / 16
        if bytes.length ≤ o1 + lengthInBytes then
          .err "insufficient bytes for callout number and priority"
        else if bytes.length ≤ o1 + 1 then .panic "index out of range"
        else
          let firstByte := ((packed % 16) * 16 + (bytes.getD (o1 + 1) 0) / 16) % 256
          let num' := calloutNumberAcc bytes o1 lengthInBytes firstByte
          let priorityByteOffset := o1 + lengthInBytes
          let pri' := (bytes.getD priorityByteOffset 0) % 16
          calloutTLVLoop bytes (priorityByteOffset + 1) num' pri'
    else .ok (offset, num, pri)
  else .ok (offset, num, pri)
termination_by bytes.length - offset

/-- `ParseCalloutSDU` (PID `0xC3`, TTR001-21 simple callout). -/
def parseCalloutSDU (bytes : List Nat) : GoResult CalloutAlert :=
  if bytes.length < 4 then .err "callout alert PDU too short"
  else
    match calloutTLVLoop bytes 0 0 0 with
    | .err e => .err e
    | .panic e => .panic e
    | .ok (offset, num, pri) =>
      if bytes.length < offset + 3 then
        .err "insufficient bytes for fixed fields"
      else
        let sender := (bytes.getD offset 0) * 256 + bytes.getD (offset + 1) 0
        let rlen := bytes.getD (offset + 2) 0
        let o3 := offset + 3
        if bytes.length < o3 + rlen then
          .err "callout alert PDU too short for receiver sub-addresses"
        else
          let numAddresses := rlen / 2
          let addrs := (List.range numAddresses).map
            (fun i => (bytes.getD (o3 + 2 * i) 0) * 256 +
              bytes.getD (o3 + 2 * i + 1) 0)
          let o4 := o3 + rlen
          if bytes.length < o4 + 1 then
            .err "callout alert PDU missing separator"
          else if bytes.getD o4 0 ≠ 255 then .err "invalid separator"
          else
            let text := if o4 + 1 < bytes.length then
                decodePayloadText 1 (bytes.drop (o4 + 1))
              else []
            .ok { calloutNumber := num, priority := pri
                  senderSubAddress := sender
                  receiverSubAddresses := addrs, text := text }

/-- `ParseSDSTransfer` ([AI] 29.4.2.4): fixed fields, optional
store/forward control, then the SDU parsed by protocol identifier. -/
def parseSDSTransfer (bytes : List Nat) : GoResult SDSTransfer :=
  if bytes.length < 4 then .err "SDS-TRANSFER PDU too short"
  else
    let b0 := bytes.getD 0 0
    let b1 := bytes.getD 1 0
    let withSFC : StoreForwardControl → GoResult SDSTransfer := fun sfc =>
      let userdataStart := 3 + (if b1 % 2 = 1 then sfc.length else 0)
      let userdata := bytes.drop userdataStart
      let finish : TransferUserData → GoResult SDSTransfer := fun sdu =>
        .ok { protocol := b0
              deliveryReportRequest := (b1 / 4) % 4
              serviceSelectionShortFormReport := (b1 / 2) % 2 = 0
              messageReference := bytes.getD 2 0
              storeForwardControl := sfc
              userData := sdu }
      if b0 = 130 ∨ b0 = 137 then
        match parseTextSDU userdata with
        | .ok sdu => finish (.text sdu)
        | .err e => .err e
        | .panic e => .panic e
      else if b0 = 138 then
        match parseConcatenatedTextSDU userdata with
        | .ok sdu => finish (.concatText sdu)
        | .err e => .err e
        | .panic e => .panic e
      else if b0 = 140 then
        match parseConcatenatedSDSMessageSDU userdata with
        | .ok sdu => finish (.concatSDS sdu)
        | .err e => .err e
        | .panic e => .panic e
      else if b0 = 195 then
        match parseCalloutSDU userdata with
        | .ok sdu => finish (.callout sdu)
        | .err e => .err e
        | .panic e => .panic e
      else .err "protocol is not supported as SDS-TRANSFER content"
    if b1 % 2 = 1 then
      match parseStoreForwardControl (bytes.drop 3) with
      | .ok sfc => withSFC sfc
      | .err e => .err e
      | .panic e => .panic e
    else withSFC .zero

/-- `ParseSDSReport` ([AI] 29.4.2.2). -/
def parseSDSReport (bytes : List Nat) : GoResult SDSReport :=
  if bytes.length < 4 then .err "SDS-REPORT PDU too short"
  else
    let b1 := bytes.getD 1 0
    let withSFC : StoreForwardControl → GoResult SDSReport := fun sfc =>
      let userdataStart := 4 + (if b1 % 2 = 1 then sfc.length else 0)
      .ok { protocol := bytes.getD 0 0
            ackRequired := (b1 / 8) % 2 = 1
            deliveryStatus := bytes.getD 2 0
            messageReference := bytes.getD 3 0
            storeForwardControl := sfc
            userData := if userdataStart < bytes.length then
                bytes.drop userdataStart
              else [] }
    if b1 % 2 = 1 then
      match parseStoreForwardControl (bytes.drop 4) with
      | .ok sfc => withSFC sfc
      | .err e => .err e
      | .panic e => .panic e
    else withSFC .zero

/-- `ParseSDSAcknowledge` ([AI] 29.4.2.1). -/
def parseSDSAcknowledge (bytes : List Nat) : GoResult SDSAcknowledge :=
  if bytes.length < 4 then .err "SDS-ACK PDU too short"
  else .ok { protocol := bytes.getD 0 0
             deliveryStatus := bytes.getD 2 0
             messageReference := bytes.getD 3 0 }

/-- `ParseSDSShortReport` ([AI] 29.4.2.3). -/
def parseSDSShortReport (bytes : List Nat) : GoResult SDSShortReport :=
  if bytes.length ≠ 2 then .err "SDS-SHORT-REPORT PDU invalid length"
  else if (bytes.getD 0 0) &&& 122 ≠ 122 then
    .err "SDS-SHORT-REPORT PDU invalid PDU identifier"
  else .ok { reportType := (bytes.getD 0 0) % 4
             messageReference := bytes.getD 1 0 }

/-- `ParseSimpleTextMessage` ([AI] 29.5.2.3). -/
def parseSimpleTextMessage (bytes : List Nat) : GoResult SimpleTextMessage :=
  if bytes.length < 2 then .err "simple text message PDU too short"
  else .ok { protocol := bytes.getD 0 0
             encoding := (bytes.getD 1 0) % 128
             text := decodePayloadText ((bytes.getD 1 0) % 128) (bytes.drop 2) }

/-- `parseSDSTLMessage`: dispatch on the message-type nibble
(byte 1, upper 4 bits). -/
def parseSDSTLMessage (bytes : List Nat) : GoResult Payload :=
  if bytes.length < 2 then .err "payload too short"
  else
    let mt := (bytes.getD 1 0) / 16
    if mt = 0 then
      match parseSDSTransfer bytes with
      | .ok t => .ok (.transfer t)
      | .err e => .err e
      | .panic e => .panic e
    else if mt = 1 then
      match parseSDSReport bytes with
      | .ok r => .ok (.report r)
      | .err e => .err e
      | .panic e => .panic e
    else if mt = 2 then
      match parseSDSAcknowledge bytes with
      | .ok a => .ok (.ack a)
      | .err e => .err e
      | .panic e => .panic e
    else .err "SDS-TL message type is not supported"

/-- `ParseSDSTLPDU` ([AI] 29.4.1): dispatch on the protocol identifier. -/
def parseSDSTLPDU (bytes : List Nat) : GoResult Payload :=
  match bytes with
  | [] => .err "empty payload"
  | b0 :: _ =>
    if b0 = 2 ∨ b0 = 9 then
      match parseSimpleTextMessage bytes with
      | .ok m => .ok (.simpleText m)
      | .err e => .err e
      | .panic e => .panic e
    else if b0 = 130 ∨ b0 = 137 ∨ b0 = 138 ∨ b0 = 140 ∨ b0 = 195 then
      parseSDSTLMessage bytes
    else .err "protocol not supported"

/-- `ParseStatus` ([AI] 14.8.34): an SDS-SHORT-REPORT when byte 0 has all
`0x7A` bits set, otherwise a two-byte big-endian status value. -/
def parseStatus (bytes : List Nat) : GoResult Payload :=
  if bytes.length < 2 then .err "status value too short"
  else if (bytes.getD 0 0) &&& 122 = 122 then
    match parseSDSShortReport bytes with
    | .ok r => .ok (.shortReport r)
    | .err e => .err e
    | .panic e => .panic e
  else .ok (.status ((bytes.getD 0 0) * 256 + bytes.getD 1 0))

/-- The AI-service dispatch of `ParseIncomingMessage`: SDS-TL (`"12"`)
PDUs go to `ParseSDSTLPDU`, status (`"13"`) PDUs to `ParseStatus`. -/
def parsePayloadDispatch (header : Header) (pduBytes : List Nat) :
    GoResult IncomingMessage :=
  if header.AIService = bstr "12" then
    match parseSDSTLPDU pduBytes with
    | .ok p => .ok ⟨header, p⟩
    | .err e => .err e
    | .panic e => .panic e
  else if header.AIService = bstr "13" then
    match parseStatus pduBytes with
    | .ok p => .ok ⟨header, p⟩
    | .err e => .err e
    | .panic e => .panic e
  else .err "AI service is not supported"

/-- `ParseIncomingMessage`: parse the header, hex-decode the PDU, log (but
do not fail) when the decoded byte count differs from the declared one,
truncate overlong PDUs to the declared byte count (`bytes[0:PDUBytes()]`,
which panics when `PDUBytes()` is negative), and dispatch on the AI
service. -/
def parseIncomingMessage (headerString pduHex : List Nat) :
    GoResult IncomingMessage :=
  match parseHeader headerString with
  | .error e => .err e
  | .ok header =>
    match hexToBinary pduHex with
    | .error _ => .err "cannot decode hex PDU data"
    | .ok pduBytes0 =>
      if (pduBytes0.length : Int) > header.PDUBytes then
        if header.PDUBytes < 0 then .panic "slice bounds out of range"
        else parsePayloadDispatch header (pduBytes0.take header.PDUBytes.toNat)
      else parsePayloadDispatch header pduBytes0

/-- C3 (amended): `ParseIncomingMessage` computes the declared PDU byte
length as `⌈PDUBits/8⌉` (for nonnegative bit counts), truncates decoded
bytes beyond that length before dispatching to the payload parser, and
when the decoded byte count is smaller than the declared byte length it
dispatches the decoded bytes unchanged — a short PDU is logged but is not
itself an error. -/
theorem parseIncomingMessage_length_handling (hs px : List Nat)
    (h : Header) (bs : List Nat)
    (hh : parseHeader hs = .ok h) (hb : hexToBinary px = .ok bs) :
    (0 ≤ h.PDUBits → h.PDUBytes = (h.PDUBits + 7) / 8) ∧
    ((bs.length : Int) > h.PDUBytes → 0 ≤ h.PDUBytes →
      parseIncomingMessage hs px =
        parsePayloadDispatch h (bs.take h.PDUBytes.toNat)) ∧
    ((bs.length : Int) ≤ h.PDUBytes →
      parseIncomingMessage hs px = parsePayloadDispatch h bs) := by
  refine ⟨?_, ?_, ?_⟩
  · intro hbits
    unfold Header.PDUBytes
    rw [Int.tdiv_eq_ediv hbits (by norm_num),
      Int.tmod_eq_emod hbits (by norm_num)]
    split_ifs with hm
    · omega
    · omega
  · intro hgt hge
    unfold parseIncomingMessage
    simp only [hh, hb]
    rw [if_pos hgt, if_neg (by omega)]
  · intro hle
    unfold parseIncomingMessage
    simp only [hh, hb]
    rw [if_neg (by omega)]

/-- Witness for `parseIncomingMessage_length_handling` at the concrete
status header/PDU pair below. -/
theorem parseIncomingMessage_length_handling_witness :
    parseIncomingMessage (bstr "+CTSDSR: 13,1001,1,2001,1,32")
        (bstr "8004") =
      parsePayloadDispatch ⟨bstr "13", bstr "1001", bstr "2001", 32⟩
        [128, 4] :=
  (parseIncomingMessage_length_handling
    (bstr "+CTSDSR: 13,1001,1,2001,1,32") (bstr "8004")
    ⟨bstr "13", bstr "1001", bstr "2001", 32⟩ [128, 4]
    (by rfl) (by rfl)).2.2 (by decide)

/-- C3 counterexample: a PDU declaring 32 bits (4 bytes) whose hex line
decodes to only 2 bytes parses successfully (to status `0x8004`) instead
of returning an error. -/
theorem parseIncomingMessage_short_pdu_counterexample :
    parseIncomingMessage (bstr "+CTSDSR: 13,1001,1,2001,1,32")
        (bstr "8004") =
      .ok ⟨⟨bstr "13", bstr "1001", bstr "2001", 32⟩, .status 32772⟩ ∧
    hexToBinary (bstr "8004") = .ok [128, 4] ∧
    (Header.mk (bstr "13") (bstr "1001") (bstr "2001") 32).PDUBytes = 4 :=
  ⟨by rfl, by rfl, by rfl⟩

/-!
## Validity period encoding (`sds/sds.go`, `ValidityPeriod.Encode`)

`Encode` works on a `time.Duration` (nanoseconds).  In each bucket the Go
code computes `byte(int(d.Truncate(unit').SomeUnit() / k))` — an exact
integer once the duration is truncated, so the float round-trip equals
truncated integer division — converts to `byte` (mod 256), increments
when a positive remainder is left, and adds the bucket base (again in
`byte` arithmetic).  Only the first byte of the `([]byte, int)` result is
modelled; the second component is always 8.
-/

/-- Go conversion of an `int` to `byte`: the low 8 bits. -/
def byteOfInt (i : Int) : Nat := (i % 256).toNat

/-- `time.Second`, `time.Minute` and `time.Hour` in nanoseconds. -/
def nsSecond : Int := 1000000000

def nsMinute : Int := 60000000000

def nsHour : Int := 3600000000000

/-- The `incIfRemainder` step of `ValidityPeriod.Encode`: convert the
bucket quotient to a byte, then increment it (byte arithmetic) when
`d - result*unit` is positive. -/
def incRound (d r0 unit : Int) : Nat :=
  let rb := byteOfInt r0
  if d - (rb : Int) * unit > 0 then (rb + 1) % 256 else rb

/-- First byte of `ValidityPeriod.Encode`.  `d.Truncate(u)` is
`d - d.tmod u`; `int(x.Seconds()/10)` etc. are the exact truncated
divisions shown. -/
def encodeValidityPeriodByte (d : Int) : Nat :=
  if d = 0 then 0
  else if d ≤ nsMinute then
    incRound d (((d - d.tmod nsSecond).tdiv nsSecond).tdiv 10) (10 * nsSecond)
  else if d ≤ 5 * nsMinute then
    (incRound d ((d - d.tmod nsMinute).tdiv nsMinute) nsMinute + 5) % 256
  else if d ≤ nsHour then
    (incRound d (((d - d.tmod nsMinute).tdiv nsMinute).tdiv 10)
      (10 * nsMinute) + 10) % 256
  else if d ≤ 6 * nsHour then
    (incRound d ((d - d.tmod nsHour).tdiv nsHour) nsHour + 15) % 256
  else if d ≤ 24 * nsHour then
    (incRound d (((d - d.tmod nsHour).tdiv nsHour).tdiv 6)
      (6 * nsHour) + 20) % 256
  else if d ≤ 288 * nsHour then
    (incRound d (((d - d.tmod nsHour).tdiv nsHour).tdiv 48)
      (48 * nsHour) + 24) % 256
  else 31

theorem trunc_tdiv_eq_ediv (d m : Int) (hd : 0 < d) (hm : 0 < m) :
    (d - d.tmod m).tdiv m = d / m := by
  rw [Int.tmod_eq_emod (le_of_lt hd) (le_of_lt hm)]
  have h1 : d - d % m = m * (d / m) := by
    rw [Int.emod_def]; ring
  rw [h1, Int.tdiv_eq_ediv (by positivity) (le_of_lt hm),
    Int.mul_ediv_cancel_left _ (ne_of_gt hm)]

theorem tdiv_nonneg_eq_ediv (a b : Int) (ha : 0 ≤ a) (hb : 0 ≤ b) :
    a.tdiv b = a / b := Int.tdiv_eq_ediv ha hb

theorem encode_bucket1 (d : Int) (h0 : 0 < d) (h1 : d ≤ 60000000000) :
    encodeValidityPeriodByte d = ((d + 9999999999) / 10000000000).toNat := by
  unfold encodeValidityPeriodByte
  rw [if_neg (by omega), if_pos (by simp only [nsMinute]; omega)]
  rw [show (d - d.tmod nsSecond).tdiv nsSecond = d / nsSecond from
    trunc_tdiv_eq_ediv d nsSecond h0 (by norm_num [nsSecond])]
  rw [tdiv_nonneg_eq_ediv _ 10
    (Int.ediv_nonneg (by omega) (by norm_num [nsSecond])) (by norm_num)]
  simp only [incRound, byteOfInt, nsSecond]
  split_ifs <;> omega

theorem encode_bucket2 (d : Int) (h0 : 60000000000 < d)
    (h1 : d ≤ 300000000000) :
    encodeValidityPeriodByte d =
      ((d + 59999999999) / 60000000000 + 5).toNat := by
  unfold encodeValidityPeriodByte
  rw [if_neg (by omega), if_neg (by simp only [nsMinute]; omega),
    if_pos (by simp only [nsMinute]; omega)]
  rw [show (d - d.tmod nsMinute).tdiv nsMinute = d / nsMinute from
    trunc_tdiv_eq_ediv d nsMinute (by omega) (by norm_num [nsMinute])]
  simp only [incRound, byteOfInt, nsMinute]
  split_ifs <;> omega

theorem encode_bucket3 (d : Int) (h0 : 300000000000 < d)
    (h1 : d ≤ 3600000000000) :
    encodeValidityPeriodByte d =
      ((d + 599999999999) / 600000000000 + 10).toNat := by
  unfold encodeValidityPeriodByte
  rw [if_neg (by omega), if_neg (by simp only [nsMinute]; omega),
    if_neg (by simp only [nsMinute]; omega),
    if_pos (by simp only [nsHour]; omega)]
  rw [show (d - d.tmod nsMinute).tdiv nsMinute = d / nsMinute from
    trunc_tdiv_eq_ediv d nsMinute (by omega) (by norm_num [nsMinute])]
  rw [tdiv_nonneg_eq_ediv _ 10
    (Int.ediv_nonneg (by omega) (by norm_num [nsMinute])) (by norm_num)]
  simp only [incRound, byteOfInt, nsMinute]
  split_ifs <;> omega

theorem encode_bucket4 (d : Int) (h0 : 3600000000000 < d)
    (h1 : d ≤ 21600000000000) :
    encodeValidityPeriodByte d =
      ((d + 3599999999999) / 3600000000000 + 15).toNat := by
  unfold encodeValidityPeriodByte
  rw [if_neg (by omega), if_neg (by simp only [nsMinute]; omega),
    if_neg (by simp only [nsMinute]; omega),
    if_neg (by simp only [nsHour]; omega),
    if_pos (by simp only [nsHour]; omega)]
  rw [show (d - d.tmod nsHour).tdiv nsHour = d / nsHour from
    trunc_tdiv_eq_ediv d nsHour (by omega) (by norm_num [nsHour])]
  simp only [incRound, byteOfInt, nsHour]
  split_ifs <;> omega

theorem encode_bucket5 (d : Int) (h0 : 21600000000000 < d)
    (h1 : d ≤ 86400000000000) :
    encodeValidityPeriodByte d =
      ((d + 21599999999999) / 21600000000000 + 20).toNat := by
  unfold encodeValidityPeriodByte
  rw [if_neg (by omega), if_neg (by simp only [nsMinute]; omega),
    if_neg (by simp only [nsMinute]; omega),
    if_neg (by simp only [nsHour]; omega),
    if_neg (by simp only [nsHour]; omega),
    if_pos (by simp only [nsHour]; omega)]
  rw [show (d - d.tmod nsHour).tdiv nsHour = d / nsHour from
    trunc_tdiv_eq_ediv d nsHour (by omega) (by norm_num [nsHour])]
  rw [tdiv_nonneg_eq_ediv _ 6
    (Int.ediv_nonneg (by omega) (by norm_num [nsHour])) (by norm_num)]
  simp only [incRound, byteOfInt, nsHour]
  split_ifs <;> omega

theorem encode_bucket6 (d : Int) (h0 : 86400000000000 < d)
    (h1 : d ≤ 1036800000000000) :
    encodeValidityPeriodByte d =
      ((d + 172799999999999) / 172800000000000 + 24).toNat := by
  unfold encodeValidityPeriodByte
  rw [if_neg (by omega), if_neg (by simp only [nsMinute]; omega),
    if_neg (by simp only [nsMinute]; omega),
    if_neg (by simp only [nsHour]; omega),
    if_neg (by simp only [nsHour]; omega),
    if_neg (by simp only [nsHour]; omega),
    if_pos (by simp only [nsHour]; omega)]
  rw [show (d - d.tmod nsHour).tdiv nsHour = d / nsHour from
    trunc_tdiv_eq_ediv d nsHour (by omega) (by norm_num [nsHour])]
  rw [tdiv_nonneg_eq_ediv _ 48
    (Int.ediv_nonneg (by omega) (by norm_num [nsHour])) (by norm_num)]
  simp only [incRound, byteOfInt, nsHour]
  split_ifs <;> omega

theorem encode_rounds_up (c : Nat) (h1 : 1 ≤ c) (h30 : c ≤ 30) (d : Int)
    (hd1 : parseValidityPeriod (c - 1) < d)
    (hd2 : d ≤ parseValidityPeriod c) :
    encodeValidityPeriodByte d = c := by
  interval_cases c <;>
    norm_num [parseValidityPeriod] at hd1 hd2 <;>
    first
      | (rw [encode_bucket1 d (by omega) (by omega)]; omega)
      | (rw [encode_bucket2 d (by omega) (by omega)]; omega)
      | (rw [encode_bucket3 d (by omega) (by omega)]; omega)
      | (rw [encode_bucket4 d (by omega) (by omega)]; omega)
      | (rw [encode_bucket5 d (by omega) (by omega)]; omega)
      | (rw [encode_bucket6 d (by omega) (by omega)]; omega)

/-- C5 (amended): `ParseValidityPeriod` realises the ETSI table for every
5-bit code; `Encode ∘ Parse` restores the code on every bucket endpoint
`0..30` (code 31, infinite, encodes back to 0 — see the counterexample);
within a bucket `Encode` rounds any positive remainder up to the next
code, and is monotone non-decreasing in the duration. -/
theorem validityPeriod_spec :
    (∀ c < 32, parseValidityPeriod c =
      if c = 0 then 0
      else if c ≤ 6 then (c : Int) * 10 * 1000000000
      else if c ≤ 10 then ((c : Int) - 5) * 60000000000
      else if c ≤ 16 then ((c : Int) - 10) * 600000000000
      else if c ≤ 21 then ((c : Int) - 15) * 3600000000000
      else if c ≤ 24 then ((c : Int) - 20) * 21600000000000
      else if c ≤ 30 then ((c : Int) - 24) * 172800000000000
      else -1) ∧
    (∀ c < 31, encodeValidityPeriodByte (parseValidityPeriod c) = c) ∧
    (∀ c : Nat, 1 ≤ c → c ≤ 30 → ∀ d : Int,
      parseValidityPeriod (c - 1) < d → d ≤ parseValidityPeriod c →
      encodeValidityPeriodByte d = c) ∧
    (∀ c c' : Nat, ∀ d d' : Int, 1 ≤ c → c ≤ c' → c' ≤ 30 →
      parseValidityPeriod (c - 1) < d → d ≤ parseValidityPeriod c →
      parseValidityPeriod (c' - 1) < d' → d' ≤ parseValidityPeriod c' →
      encodeValidityPeriodByte d ≤ encodeValidityPeriodByte d') := by
  refine ⟨by decide, by decide, encode_rounds_up, ?_⟩
  intro c c' d d' h1 hcc h30 hd1 hd2 hd1' hd2'
  rw [encode_rounds_up c h1 (le_trans hcc h30) d hd1 hd2,
    encode_rounds_up c' (le_trans h1 hcc) h30 d' hd1' hd2']
  exact hcc

/-- Witness for `validityPeriod_spec`: 25 minutes lies strictly between
the code-12 and code-13 endpoints and encodes to 13 (rounded up). -/
theorem validityPeriod_spec_witness :
    encodeValidityPeriodByte 1500000000000 = 13 :=
  validityPeriod_spec.2.2.1 13 (by norm_num) (by norm_num)
    1500000000000 (by decide) (by decide)

/-- C5 counterexample: code 31 parses to the infinite validity period
(`-1`), which `Encode` maps back to code 0, not 31. -/
theorem validityPeriod_roundtrip_31_counterexample :
    parseValidityPeriod 31 = -1 ∧
    encodeValidityPeriodByte (parseValidityPeriod 31) = 0 := by
  decide

/-- C9: `ParseStoreForwardControl` rejects every short declared address
tail with an error, but it is not total on well-formed input: for forward
address type 3 with a declared digit count `l ≥ 1` and a sufficient tail
it panics (index out of range) instead of returning the decoded BCD
digits, because the digit slice is created with length 0
(`make(ExternalSubscriberNumber, 0, l)`) and then written by index. -/
theorem parseStoreForwardControl_external_subscriber_bug :
    parseStoreForwardControl [3, 1, 33] = .panic "index out of range" ∧
    parseStoreForwardControl [3, 1] =
      .err "store forward control with external subscriber number too short" ∧
    parseStoreForwardControl [0] =
      .err "store forward control with SNA too short" ∧
    parseStoreForwardControl [1, 0, 0] =
      .err "store forward control with SSI too short" ∧
    parseStoreForwardControl [2, 0, 0] =
      .err "store forward control with TSI too short" ∧
    parseStoreForwardControl [] = .err "store forward control too short" :=
  ⟨rfl, rfl, rfl, rfl, rfl, rfl⟩

/-!
## Reassembly stack (`sds/stack.go`)

`Message` keeps its parts as a validity flag plus text; we model a part
as `Option (List Nat)`.  The pending map `map[int]Message` is modelled as
an association list (first match wins).  `Stack.putSDSTransfer` is
modelled in the configuration where a message callback is registered and
the response callback is not; the messages handed to the callback are
returned alongside the new pending state and the optional error.  The
`time.Now()` call in the `ConcatenatedSDSMessageSDU` branch is passed in
as the `now` argument.
-/

/-- `Message` of `sds/stack.go`. -/
structure Msg where
  id : Int
  source : List Nat
  destination : List Nat
  timestamp : Option GoTimestamp
  parts : List (Option (List Nat))
  deriving DecidableEq, Repr

/-- `NewMessage`: all parts start invalid. -/
def newMessage (id : Int) (src dst : List Nat) (ts : Option GoTimestamp)
    (parts : Nat) : Msg :=
  ⟨id, src, dst, ts, List.replicate parts none⟩

/-- `Message.SetPart`: 1-based; out-of-range indices (0 or beyond the
part count) are ignored.  Sequence numbers are bytes, hence `Nat`. -/
def Msg.setPart (m : Msg) (i : Nat) (text : List Nat) : Msg :=
  if i = 0 ∨ m.parts.length < i then m
  else { m with parts := m.parts.set (i - 1) (some text) }

/-- `Message.Complete`: every part valid. -/
def Msg.complete (m : Msg) : Bool := m.parts.all Option.isSome

/-- Lookup in the pending map. -/
def lookupPending (p : List (Int × Msg)) (id : Int) : Option Msg :=
  (p.find? (fun e => e.1 = id)).map Prod.snd

/-- Store (insert or replace) in the pending map. -/
def insertPending (p : List (Int × Msg)) (id : Int) (m : Msg) :
    List (Int × Msg) :=
  if p.any (fun e => e.1 = id) then
    p.map (fun e => if e.1 = id then (id, m) else e)
  else p ++ [(id, m)]

/-- `delete` from the pending map. -/
def erasePending (p : List (Int × Msg)) (id : Int) : List (Int × Msg) :=
  p.filter (fun e => e.1 ≠ id)

/-- `Stack.putSDSTransfer` (message callback registered, response
callback not): returns the new pending map, the messages delivered to the
message callback, and the error returned to the caller. -/
def putSDSTransfer (now : Option GoTimestamp) (pending : List (Int × Msg))
    (header : Header) (sdsTransfer : SDSTransfer) :
    List (Int × Msg) × List Msg × Option String :=
  let finish : Msg → List (Int × Msg) × List Msg × Option String := fun message =>
    if message.complete then
      (erasePending pending message.id, [message], none)
    else (insertPending pending message.id message, [], none)
  match sdsTransfer.userData with
  | .text sdu =>
    let messageID : Int := sdsTransfer.messageReference
    finish ((newMessage messageID header.Source header.Destination
      sdu.header.timestamp 1).setPart 1 sdu.text)
  | .concatText sdu =>
    let messageID : Int := sdu.userDataHeader.messageReference
    match lookupPending pending messageID with
    | none =>
      finish ((newMessage messageID header.Source header.Destination
        sdu.textSDU.header.timestamp sdu.userDataHeader.totalNumber).setPart
          sdu.userDataHeader.sequenceNumber sdu.textSDU.text)
    | some message =>
      if message.source ≠ header.Source ∨
          message.destination ≠ header.Destination ∨
          message.parts.length ≠ sdu.userDataHeader.totalNumber then
        (pending, [], some "part does not match message")
      else
        finish (message.setPart sdu.userDataHeader.sequenceNumber
          sdu.textSDU.text)
  | .concatSDS sdu =>
    let messageID : Int := sdu.concatenationReference
    match lookupPending pending messageID with
    | none =>
      finish ((newMessage messageID header.Source header.Destination
        now sdu.totalNumber).setPart sdu.sequenceNumber sdu.payloadData)
    | some message =>
      if message.source ≠ header.Source ∨
          message.destination ≠ header.Destination ∨
          message.parts.length ≠ sdu.totalNumber then
        (pending, [], some "part does not match message")
      else
        finish (message.setPart sdu.sequenceNumber sdu.payloadData)
  | .callout _ => (pending, [], some "unexpected SDS-TRANSFER SDU")

/-- A concatenated-text SDS-TRANSFER part (protocol `0x8A`, short
reference) with the given UDH message reference `id`, total part count
`N`, sequence number `s`, transfer-level message reference `ref`,
timestamp and text. -/
def mkConcatTextPart (enc : Nat) (ts : Option GoTimestamp)
    (id N s ref : Nat) (text : List Nat) : SDSTransfer :=
  { protocol := 138
    deliveryReportRequest := 0
    serviceSelectionShortFormReport := true
    messageReference := ref
    storeForwardControl := .zero
    userData := .concatText
      { textSDU := { header := { encoding := enc, timestamp := ts }
                     text := text }
        userDataHeader :=
          { headerLength := 5, elementID := 0, elementLength := 3
            messageReference := id, totalNumber := N
            sequenceNumber := s } } }

/-- C6: an incoming concatenated part (either SDU kind) whose header
source, header destination, or total part count differs from the pending
entry under its message id is rejected with an error, nothing is
delivered, and the pending map is returned exactly as it was. -/
theorem stack_put_mismatch_rejected (now : Option GoTimestamp)
    (pending : List (Int × Msg)) (header : Header) (t : SDSTransfer)
    (m : Msg) :
    (∀ sdu, t.userData = .concatText sdu →
      lookupPending pending (sdu.userDataHeader.messageReference : Int) =
        some m →
      (m.source ≠ header.Source ∨ m.destination ≠ header.Destination ∨
        m.parts.length ≠ sdu.userDataHeader.totalNumber) →
      putSDSTransfer now pending header t =
        (pending, [], some "part does not match message")) ∧
    (∀ sdu, t.userData = .concatSDS sdu →
      lookupPending pending (sdu.concatenationReference : Int) = some m →
      (m.source ≠ header.Source ∨ m.destination ≠ header.Destination ∨
        m.parts.length ≠ sdu.totalNumber) →
      putSDSTransfer now pending header t =
        (pending, [], some "part does not match message")) := by
  constructor
  · intro sdu hu hl hmis
    unfold putSDSTransfer
    rw [hu]
    simp only [hl]
    rw [if_pos hmis]
  · intro sdu hu hl hmis
    unfold putSDSTransfer
    rw [hu]
    simp only [hl]
    rw [if_pos hmis]

/-- Witness for `stack_put_mismatch_rejected`: a pending two-part message
from source `"1"` rejects a part arriving from source `"9"`. -/
theorem stack_put_mismatch_rejected_witness :
    putSDSTransfer none [(5, ⟨5, bstr "1", bstr "2", none, [none, none]⟩)]
      ⟨bstr "12", bstr "9", bstr "2", 104⟩
      (mkConcatTextPart 1 none 5 2 1 7 (bstr "A")) =
      ([(5, ⟨5, bstr "1", bstr "2", none, [none, none]⟩)], [],
        some "part does not match message") :=
  (stack_put_mismatch_rejected none
    [(5, ⟨5, bstr "1", bstr "2", none, [none, none]⟩)]
    ⟨bstr "12", bstr "9", bstr "2", 104⟩
    (mkConcatTextPart 1 none 5 2 1 7 (bstr "A"))
    ⟨5, bstr "1", bstr "2", none, [none, none]⟩).1
    _ rfl (by decide) (by decide)

theorem insertPending_cons_ne (k : Int) (v : Msg) (p : List (Int × Msg))
    (id : Int) (m : Msg) (hk : k ≠ id) :
    insertPending ((k, v) :: p) id m = (k, v) :: insertPending p id m := by
  unfold insertPending
  by_cases hp : p.any (fun e => e.1 = id)
  · rw [if_pos (by simp [hp]), if_pos hp]
    simp [hk]
  · rw [if_neg (by simp [hk, hp]), if_neg hp]
    simp

theorem find?_map_replace (l : List (Int × Msg)) (id id' : Int) (m : Msg)
    (h : id' ≠ id) :
    (l.map (fun e => if e.1 = id then (id, m) else e)).find?
        (fun e => e.1 = id') =
      l.find? (fun e => e.1 = id') := by
  induction l with
  | nil => rfl
  | cons e rest ih =>
    by_cases he : e.1 = id
    · simp only [List.map_cons, if_pos he, List.find?_cons]
      rw [show (decide ((id, m).1 = id') : Bool) = false by simp [Ne.symm h],
        show (decide (e.1 = id') : Bool) = false by simp [he, Ne.symm h]]
      exact ih
    · simp only [List.map_cons, if_neg he, List.find?_cons]
      cases hd : (decide (e.1 = id') : Bool)
      · exact ih
      · rfl

theorem lookupPending_insert (p : List (Int × Msg)) (id : Int) (m : Msg)
    (id' : Int) :
    lookupPending (insertPending p id m) id' =
      if id' = id then some m else lookupPending p id' := by
  induction p with
  | nil =>
    unfold insertPending lookupPending
    simp only [List.any_nil, Bool.false_eq_true, if_false, List.nil_append]
    by_cases h : id' = id
    · simp [h]
    · simp [Ne.symm h, h]
  | cons e rest ih =>
    obtain ⟨k, v⟩ := e
    by_cases hk : k = id
    · subst hk
      unfold insertPending
      rw [if_pos (by simp)]
      rw [show ((k, v) :: rest).map (fun e => if e.1 = k then (k, m) else e) =
        (k, m) :: rest.map (fun e => if e.1 = k then (k, m) else e) by simp]
      unfold lookupPending
      by_cases h : id' = k
      · subst h
        simp
      · rw [if_neg h]
        simp only [List.find?_cons]
        rw [show (decide ((k, m).1 = id') : Bool) = false by
            simp [Ne.symm h]]
        exact congrArg (Option.map Prod.snd)
          (find?_map_replace rest k id' m h)
    · rw [insertPending_cons_ne k v rest id m hk]
      by_cases h : id' = k
      · subst h
        unfold lookupPending
        rw [if_neg hk]
        simp [List.find?_cons]
      · unfold lookupPending at ih ⊢
        simp only [List.find?_cons]
        rw [show (decide ((k, v).1 = id') : Bool) = false by
          simp [Ne.symm h]]
        exact ih

/-- C10 (amended): an out-of-range sequence number (0 or greater than the
total part count) yields no error and modifies no part slot; the pending
entry (existing and incomplete, or newly created with total ≥ 1) is still
stored under the message id, so the part is silently dropped.  For a
fresh id with a total part count of 0 the entry is not stored — see the
counterexample: the immediately-complete empty message is delivered
instead. -/
theorem stack_put_out_of_range_dropped (now : Option GoTimestamp)
    (pending : List (Int × Msg)) (header : Header) (t : SDSTransfer)
    (sdu : ConcatenatedTextSDU) (hu : t.userData = .concatText sdu)
    (hseq : sdu.userDataHeader.sequenceNumber = 0 ∨
      sdu.userDataHeader.totalNumber < sdu.userDataHeader.sequenceNumber) :
    (∀ m : Msg,
      lookupPending pending (sdu.userDataHeader.messageReference : Int) =
        some m →
      m.id = (sdu.userDataHeader.messageReference : Int) →
      m.source = header.Source → m.destination = header.Destination →
      m.parts.length = sdu.userDataHeader.totalNumber →
      m.complete = false →
      putSDSTransfer now pending header t =
        (insertPending pending (sdu.userDataHeader.messageReference : Int) m,
          [], none) ∧
      (∀ id', lookupPending
        (insertPending pending (sdu.userDataHeader.messageReference : Int) m)
          id' = lookupPending pending id')) ∧
    (lookupPending pending (sdu.userDataHeader.messageReference : Int) =
        none →
      1 ≤ sdu.userDataHeader.totalNumber →
      putSDSTransfer now pending header t =
        (insertPending pending (sdu.userDataHeader.messageReference : Int)
          (newMessage (sdu.userDataHeader.messageReference : Int)
            header.Source header.Destination sdu.textSDU.header.timestamp
            sdu.userDataHeader.totalNumber), [], none) ∧
      lookupPending
        (insertPending pending (sdu.userDataHeader.messageReference : Int)
          (newMessage (sdu.userDataHeader.messageReference : Int)
            header.Source header.Destination sdu.textSDU.header.timestamp
            sdu.userDataHeader.totalNumber))
        (sdu.userDataHeader.messageReference : Int) =
      some (newMessage (sdu.userDataHeader.messageReference : Int)
        header.Source header.Destination sdu.textSDU.header.timestamp
        sdu.userDataHeader.totalNumber)) := by
  constructor
  · intro m hl hid hsrc hdst hlen hinc
    have hnoop : m.setPart sdu.userDataHeader.sequenceNumber
        sdu.textSDU.text = m := by
      unfold Msg.setPart
      rw [if_pos (by omega)]
    refine ⟨?_, ?_⟩
    · unfold putSDSTransfer
      rw [hu]
      simp only [hl]
      rw [if_neg (by simp [hsrc, hdst, hlen]), hnoop]
      simp only [Msg.complete] at hinc
      simp only [Msg.complete, hinc, Bool.false_eq_true, if_false, hid]
    · intro id'
      rw [lookupPending_insert]
      split_ifs with h
      · rw [h, hl]
      · rfl
  · intro hl htot
    have hnoop : (newMessage (sdu.userDataHeader.messageReference : Int)
        header.Source header.Destination sdu.textSDU.header.timestamp
        sdu.userDataHeader.totalNumber).setPart
          sdu.userDataHeader.sequenceNumber sdu.textSDU.text =
        newMessage (sdu.userDataHeader.messageReference : Int)
          header.Source header.Destination sdu.textSDU.header.timestamp
          sdu.userDataHeader.totalNumber := by
      unfold Msg.setPart newMessage
      rw [if_pos (by simp only [List.length_replicate]; omega)]
    have hinc : (List.replicate sdu.userDataHeader.totalNumber
        (none : Option (List Nat))).all Option.isSome = false := by
      cases htot' : sdu.userDataHeader.totalNumber with
      | zero => omega
      | succ n => simp [List.replicate_succ]
    refine ⟨?_, ?_⟩
    · unfold putSDSTransfer
      rw [hu]
      simp only [hl]
      rw [hnoop]
      simp only [Msg.complete, newMessage, hinc, Bool.false_eq_true,
        if_false]
    · rw [lookupPending_insert]
      simp

/-- Witness for `stack_put_out_of_range_dropped`: sequence number 3 with
total 2 leaves the incomplete pending entry untouched and errors not. -/
theorem stack_put_out_of_range_dropped_witness :
    putSDSTransfer none
      [(5, ⟨5, bstr "1", bstr "2", none, [none, some (bstr "X")]⟩)]
      ⟨bstr "12", bstr "1", bstr "2", 104⟩
      (mkConcatTextPart 1 none 5 2 3 7 (bstr "A")) =
      ([(5, ⟨5, bstr "1", bstr "2", none, [none, some (bstr "X")]⟩)],
        [], none) :=
  ((stack_put_out_of_range_dropped none
    [(5, ⟨5, bstr "1", bstr "2", none, [none, some (bstr "X")]⟩)]
    ⟨bstr "12", bstr "1", bstr "2", 104⟩
    (mkConcatTextPart 1 none 5 2 3 7 (bstr "A"))
    _ rfl (by decide)).1
    ⟨5, bstr "1", bstr "2", none, [none, some (bstr "X")]⟩
    (by rfl) (by decide) rfl rfl (by decide) (by decide)).1

/-- C10 counterexample: an out-of-range part for a fresh id with total
part count 0 returns no error, but nothing is stored under the message
id: the vacuously complete empty message is delivered instead. -/
theorem stack_put_total_zero_counterexample :
    putSDSTransfer none [] ⟨bstr "12", bstr "1", bstr "2", 104⟩
      (mkConcatTextPart 1 none 9 0 1 7 (bstr "A")) =
      ([], [⟨9, bstr "1", bstr "2", none, []⟩], none) := by
  rfl

/-- Feed a list of SDS-TRANSFERs to the stack in order, collecting the
delivered messages and the errors returned to the caller. -/
def feedParts (now : Option GoTimestamp) (pending : List (Int × Msg))
    (header : Header) : List SDSTransfer →
    List (Int × Msg) × List Msg × List String
  | [] => (pending, [], [])
  | t :: rest =>
    let step := putSDSTransfer now pending header t
    let next := feedParts now step.1 header rest
    (next.1, step.2.1 ++ next.2.1,
      (match step.2.2 with | some e => [e] | none => []) ++ next.2.2)

/-- The part list of an `N`-part message of which exactly the sequence
numbers in `S` have arrived, with part `s` carrying `texts s`. -/
def partsOfSet (N : Nat) (texts : Nat → List Nat) (S : List Nat) :
    List (Option (List Nat)) :=
  (List.range N).map
    (fun j => if (j + 1) ∈ S then some (texts (j + 1)) else none)

/-- The pending `Message` after the sequence numbers in `S` arrived. -/
def msgOfSet (id : Nat) (src dst : List Nat) (ts : Option GoTimestamp)
    (N : Nat) (texts : Nat → List Nat) (S : List Nat) : Msg :=
  ⟨(id : Int), src, dst, ts, partsOfSet N texts S⟩

/-- The pending map after the sequence numbers in `S` arrived. -/
def pendingOfSet (id : Nat) (src dst : List Nat) (ts : Option GoTimestamp)
    (N : Nat) (texts : Nat → List Nat) (S : List Nat) : List (Int × Msg) :=
  if S = [] then [] else [((id : Int), msgOfSet id src dst ts N texts S)]

theorem partsOfSet_length (N : Nat) (texts : Nat → List Nat)
    (S : List Nat) : (partsOfSet N texts S).length = N := by
  simp [partsOfSet]

theorem partsOfSet_nil (N : Nat) (texts : Nat → List Nat) :
    partsOfSet N texts [] = List.replicate N none := by
  apply List.ext_getElem
  · simp [partsOfSet]
  · intro j hj hj'
    simp [partsOfSet]

theorem partsOfSet_snoc (N : Nat) (texts : Nat → List Nat) (S : List Nat)
    (s : Nat) (h1 : 1 ≤ s) (hN : s ≤ N) :
    (partsOfSet N texts S).set (s - 1) (some (texts s)) =
      partsOfSet N texts (S ++ [s]) := by
  apply List.ext_getElem
  · simp [partsOfSet]
  · intro j hj hj'
    rw [List.getElem_set]
    simp only [partsOfSet, List.getElem_map, List.getElem_range] at hj' ⊢
    have hjN : j < N := by simpa [partsOfSet] using hj'
    by_cases hcase : s - 1 = j
    · have hsj : j + 1 = s := by omega
      rw [if_pos hcase, hsj]
      rw [if_pos (by simp)]
    · have hsj : j + 1 ≠ s := by omega
      rw [if_neg hcase]
      by_cases hmem : (j + 1) ∈ S
      · rw [if_pos hmem, if_pos (by simp [hmem])]
      · rw [if_neg hmem, if_neg (by simp [hmem, hsj])]

theorem msgOfSet_complete (id : Nat) (src dst : List Nat)
    (ts : Option GoTimestamp) (N : Nat) (texts : Nat → List Nat)
    (S : List Nat) :
    (msgOfSet id src dst ts N texts S).complete = true ↔
      ∀ j < N, (j + 1) ∈ S := by
  unfold Msg.complete msgOfSet partsOfSet
  rw [List.all_eq_true]
  constructor
  · intro h j hj
    have := h (if (j + 1) ∈ S then some (texts (j + 1)) else none)
      (List.mem_map.2 ⟨j, List.mem_range.2 hj, rfl⟩)
    by_contra hmem
    rw [if_neg hmem] at this
    simp at this
  · intro h x hx
    obtain ⟨j, hj, rfl⟩ := List.mem_map.1 hx
    rw [if_pos (h j (List.mem_range.1 hj))]
    rfl

theorem putSDSTransfer_mkConcat_none (now : Option GoTimestamp)
    (pending : List (Int × Msg)) (header : Header)
    (enc : Nat) (ts : Option GoTimestamp) (id N s ref : Nat)
    (text : List Nat)
    (hl : lookupPending pending (id : Int) = none) :
    putSDSTransfer now pending header
      (mkConcatTextPart enc ts id N s ref text) =
      if ((newMessage (id : Int) header.Source header.Destination ts
          N).setPart s text).complete then
        (erasePending pending ((newMessage (id : Int) header.Source
          header.Destination ts N).setPart s text).id,
          [(newMessage (id : Int) header.Source header.Destination ts
            N).setPart s text], none)
      else
        (insertPending pending ((newMessage (id : Int) header.Source
          header.Destination ts N).setPart s text).id
          ((newMessage (id : Int) header.Source header.Destination ts
            N).setPart s text), [], none) := by
  unfold putSDSTransfer mkConcatTextPart
  simp only [hl]

theorem putSDSTransfer_mkConcat_some (now : Option GoTimestamp)
    (pending : List (Int × Msg)) (header : Header)
    (enc : Nat) (ts : Option GoTimestamp) (id N s ref : Nat)
    (text : List Nat) (m : Msg)
    (hl : lookupPending pending (id : Int) = some m)
    (hmatch : m.source = header.Source ∧ m.destination = header.Destination
      ∧ m.parts.length = N) :
    putSDSTransfer now pending header
      (mkConcatTextPart enc ts id N s ref text) =
      if (m.setPart s text).complete then
        (erasePending pending (m.setPart s text).id, [m.setPart s text],
          none)
      else
        (insertPending pending (m.setPart s text).id (m.setPart s text),
          [], none) := by
  unfold putSDSTransfer mkConcatTextPart
  simp only [hl]
  rw [if_neg (by push_neg; exact ⟨hmatch.1, hmatch.2.1, hmatch.2.2⟩)]

theorem putStep_eq (now : Option GoTimestamp) (header : Header)
    (enc id N : Nat) (ts : Option GoTimestamp)
    (texts : Nat → List Nat) (refs : Nat → Nat)
    (S : List Nat) (s : Nat) (h1 : 1 ≤ s) (hN : s ≤ N) :
    putSDSTransfer now
      (pendingOfSet id header.Source header.Destination ts N texts S)
      header (mkConcatTextPart enc ts id N s (refs s) (texts s)) =
      if ∀ j < N, (j + 1) ∈ S ++ [s] then
        ([], [msgOfSet id header.Source header.Destination ts N texts
          (S ++ [s])], none)
      else
        (pendingOfSet id header.Source header.Destination ts N texts
          (S ++ [s]), [], none) := by
  have hset : ∀ S', (msgOfSet id header.Source header.Destination ts N
      texts S').setPart s (texts s) =
      msgOfSet id header.Source header.Destination ts N texts
        (S' ++ [s]) := by
    intro S'
    unfold Msg.setPart
    rw [if_neg (by simp only [msgOfSet, partsOfSet_length]; omega)]
    simp only [msgOfSet]
    rw [partsOfSet_snoc N texts S' s h1 hN]
  have hnew : newMessage (id : Int) header.Source header.Destination ts
      N = msgOfSet id header.Source header.Destination ts N texts [] := by
    unfold newMessage msgOfSet
    rw [partsOfSet_nil]
  by_cases hS : S = []
  · subst hS
    have hpend0 : pendingOfSet id header.Source header.Destination ts N
        texts [] = [] := rfl
    rw [hpend0,
      putSDSTransfer_mkConcat_none now [] header enc ts id N s (refs s)
        (texts s) rfl,
      hnew, hset []]
    simp only [List.nil_append]
    have hid : (msgOfSet id header.Source header.Destination ts N texts
      [s]).id = (id : Int) := rfl
    by_cases hcomp : ∀ j < N, (j + 1) ∈ [s]
    · rw [if_pos ((msgOfSet_complete _ _ _ _ _ _ _).2 hcomp),
        if_pos (by simpa using hcomp), hid]
      rfl
    · rw [if_neg (by rw [msgOfSet_complete]; exact hcomp),
        if_neg (by simpa using hcomp), hid]
      have hins : insertPending [] (id : Int)
          (msgOfSet id header.Source header.Destination ts N texts [s]) =
          [((id : Int),
            msgOfSet id header.Source header.Destination ts N texts [s])] := rfl
      rw [hins]
      unfold pendingOfSet
      rw [if_neg (by simp)]
  · have hpend : pendingOfSet id header.Source header.Destination ts N
        texts S = [((id : Int),
          msgOfSet id header.Source header.Destination ts N texts S)] := by
      unfold pendingOfSet
      rw [if_neg hS]
    have hlook : lookupPending
        (pendingOfSet id header.Source header.Destination ts N texts S)
        (id : Int) =
        some (msgOfSet id header.Source header.Destination ts N texts S) := by
      rw [hpend]
      unfold lookupPending
      simp
    rw [putSDSTransfer_mkConcat_some now _ header enc ts id N s (refs s)
      (texts s) _ hlook ⟨rfl, rfl, by simp [msgOfSet, partsOfSet_length]⟩]
    rw [hset S]
    have hid : (msgOfSet id header.Source header.Destination ts N texts
      (S ++ [s])).id = (id : Int) := rfl
    by_cases hcomp : ∀ j < N, (j + 1) ∈ S ++ [s]
    · rw [if_pos ((msgOfSet_complete _ _ _ _ _ _ _).2 hcomp),
        if_pos hcomp, hid, hpend]
      unfold erasePending
      simp
    · rw [if_neg (by rw [msgOfSet_complete]; exact hcomp),
        if_neg hcomp, hid, hpend]
      unfold insertPending
      rw [if_pos (by simp)]
      unfold pendingOfSet
      rw [if_neg (by simp)]
      simp

theorem feed_inv (now : Option GoTimestamp) (header : Header)
    (enc id N : Nat) (ts : Option GoTimestamp)
    (texts : Nat → List Nat) (refs : Nat → Nat) :
    ∀ (rest S : List Nat), rest ≠ [] →
    (S ++ rest).Nodup → (∀ x ∈ S ++ rest, 1 ≤ x ∧ x ≤ N) →
    feedParts now
      (pendingOfSet id header.Source header.Destination ts N texts S)
      header
      (rest.map
        (fun s => mkConcatTextPart enc ts id N s (refs s) (texts s))) =
      if ∀ j < N, (j + 1) ∈ S ++ rest then
        ([], [msgOfSet id header.Source header.Destination ts N texts
          (S ++ rest)], [])
      else
        (pendingOfSet id header.Source header.Destination ts N texts
          (S ++ rest), [], []) := by
  intro rest
  induction rest with
  | nil => intro S h; exact absurd rfl h
  | cons s rest' ih =>
    intro S _ hnd hbd
    have hs1 : 1 ≤ s := (hbd s (by simp)).1
    have hsN : s ≤ N := (hbd s (by simp)).2
    simp only [List.map_cons, feedParts]
    rw [putStep_eq now header enc id N ts texts refs S s hs1 hsN]
    cases rest' with
    | nil =>
      by_cases hcomp : ∀ j < N, (j + 1) ∈ S ++ [s]
      · rw [if_pos hcomp, if_pos hcomp]
        simp [feedParts]
      · rw [if_neg hcomp, if_neg hcomp]
        simp [feedParts]
    | cons s2 rest'' =>
      have hnd2 := hnd
      rw [List.nodup_append] at hnd2
      have hs2mem : s2 ∈ S ++ s :: s2 :: rest'' := by simp
      have hs2b := hbd s2 hs2mem
      have hs2S : s2 ∉ S := fun h => hnd2.2.2 h (by simp)
      have hs2s : s2 ≠ s := by
        have := hnd2.2.1
        rw [List.nodup_cons] at this
        intro h
        exact this.1 (by simp [h])
      have hncomp : ¬ ∀ j < N, (j + 1) ∈ S ++ [s] := by
        intro hall
        have := hall (s2 - 1) (by omega)
        rw [show s2 - 1 + 1 = s2 by omega] at this
        rcases List.mem_append.1 this with h | h
        · exact hs2S h
        · simp at h
          exact hs2s h
      rw [if_neg hncomp]
      simp only []
      rw [ih (S ++ [s]) (by simp)
        (by simpa [List.append_assoc] using hnd)
        (by
          intro x hx
          exact hbd x (by simpa [List.append_assoc] using hx))]
      rw [List.append_assoc]
      simp

/-- C7 (amended): for concatenated text parts with the same source,
destination, total `N`, the same timestamp, and sequence numbers forming
a permutation of `1..N`, feeding the parts to the stack in any order
delivers the message callback exactly once — with no error and nothing
left pending — and always with the same final message: the given id,
source, destination, timestamp, and the part texts in sequence order.
(The message timestamp comes from whichever part arrives first, so
permutations agree on it only when all parts carry the same timestamp —
see the counterexample; `ConcatenatedSDSMessageSDU` reassembly stamps the
first part's wall-clock arrival time, which is order-dependent in the
same way.) -/
theorem concat_reassembly_order_independent (now : Option GoTimestamp)
    (header : Header) (enc id N : Nat) (ts : Option GoTimestamp)
    (texts : Nat → List Nat) (refs : Nat → Nat)
    (hN : 1 ≤ N) (perm : List Nat)
    (hperm : perm.Perm (List.range' 1 N)) :
    feedParts now [] header
      (perm.map
        (fun s => mkConcatTextPart enc ts id N s (refs s) (texts s))) =
      ([], [⟨(id : Int), header.Source, header.Destination, ts,
        (List.range N).map (fun j => some (texts (j + 1)))⟩], []) := by
  have hlen : perm.length = N := by simpa using hperm.length_eq
  have hne : perm ≠ [] := by
    intro h
    rw [h] at hlen
    simp at hlen
    omega
  have hnd : perm.Nodup := hperm.symm.nodup (List.nodup_range' 1 N)
  have hbd : ∀ x ∈ perm, 1 ≤ x ∧ x ≤ N := by
    intro x hx
    have := List.mem_range'_1.1 (hperm.mem_iff.1 hx)
    omega
  have h0 : pendingOfSet id header.Source header.Destination ts N texts
      [] = [] := rfl
  have hfeed := feed_inv now header enc id N ts texts refs perm [] hne
    (by simpa using hnd) (by simpa using hbd)
  rw [h0] at hfeed
  simp only [List.nil_append] at hfeed
  rw [hfeed, if_pos (by
    intro j hj
    exact hperm.mem_iff.2 (List.mem_range'_1.2 (by omega)))]
  have hparts : partsOfSet N texts perm =
      (List.range N).map (fun j => some (texts (j + 1))) := by
    unfold partsOfSet
    apply List.ext_getElem
    · simp
    · intro j hj hj'
      simp only [List.getElem_map, List.getElem_range]
      rw [if_pos (hperm.mem_iff.2 (List.mem_range'_1.2 (by
        simp at hj
        omega)))]
  unfold msgOfSet
  rw [hparts]

/-- Witness for `concat_reassembly_order_independent`: the two parts of a
2-part message fed in reverse order (2 then 1) still deliver exactly the
canonical message. -/
theorem concat_reassembly_order_independent_witness :
    feedParts none [] ⟨bstr "12", bstr "1", bstr "2", 104⟩
      ([2, 1].map (fun s => mkConcatTextPart 1 none 9 2 s s
        (if s = 1 then bstr "A" else bstr "B"))) =
      ([], [⟨(9 : Int), bstr "1", bstr "2", none,
        [some (bstr "A"), some (bstr "B")]⟩], []) := by
  have h := concat_reassembly_order_independent none
    ⟨bstr "12", bstr "1", bstr "2", 104⟩ 1 9 2 none
    (fun s => if s = 1 then bstr "A" else bstr "B") (fun s => s)
    (by norm_num) [2, 1] (by decide)
  simpa using h

/-- C7 counterexample: two matching 2-part concatenated texts whose
timestamps differ deliver different final messages depending on arrival
order — the message keeps the timestamp of whichever part arrived first,
so the claim's "same final Message (… timestamp …)" fails. -/
theorem concat_reassembly_timestamp_counterexample :
    (feedParts none [] ⟨bstr "12", bstr "1", bstr "2", 104⟩
      [mkConcatTextPart 1 none 9 2 1 7 (bstr "A"),
       mkConcatTextPart 1 (some ⟨1, 4, 11, 10, 15⟩) 9 2 2 8 (bstr "B")]).2.1 =
      [⟨(9 : Int), bstr "1", bstr "2", none,
        [some (bstr "A"), some (bstr "B")]⟩] ∧
    (feedParts none [] ⟨bstr "12", bstr "1", bstr "2", 104⟩
      [mkConcatTextPart 1 (some ⟨1, 4, 11, 10, 15⟩) 9 2 2 8 (bstr "B"),
       mkConcatTextPart 1 none 9 2 1 7 (bstr "A")]).2.1 =
      [⟨(9 : Int), bstr "1", bstr "2", some ⟨1, 4, 11, 10, 15⟩,
        [some (bstr "A"), some (bstr "B")]⟩] ∧
    (feedParts none [] ⟨bstr "12", bstr "1", bstr "2", 104⟩
      [mkConcatTextPart 1 none 9 2 1 7 (bstr "A"),
       mkConcatTextPart 1 (some ⟨1, 4, 11, 10, 15⟩) 9 2 2 8 (bstr "B")]).2.1 ≠
    (feedParts none [] ⟨bstr "12", bstr "1", bstr "2", 104⟩
      [mkConcatTextPart 1 (some ⟨1, 4, 11, 10, 15⟩) 9 2 2 8 (bstr "B"),
       mkConcatTextPart 1 none 9 2 1 7 (bstr "A")]).2.1 := by
  refine ⟨by decide, by decide, by decide⟩

/-!
## Text splitting (`sds/text.go`, `BitsToTextBytes`, `SplitToMaxBits`)
-/

/-- `BitsToTextBytes`: the number of characters fitting into the given
number of bits — `bits/7` for `Packed7Bit` (encoding 0), `bits/8`
otherwise (Go integer division). -/
def bitsToTextBytes (encoding : Nat) (bits : Int) : Int :=
  if encoding = 0 then bits.tdiv 7 else bits.tdiv 8

/-- The splitting loop of `SplitToMaxBits`: take `maxLen`-character parts
while more than `maxLen` characters remain, then the non-empty rest.
The Go loop runs only when `maxLen ≥ 1` (see `splitToMaxBits`); the
`0 < maxLen` guard makes the recursion well-founded without changing the
behaviour on that domain. -/
def splitLoop (maxLen : Nat) (t : List Nat) : List (List Nat) :=
  if maxLen < t.length ∧ 0 < maxLen then
    (if t.take maxLen = [] then [] else [t.take maxLen]) ++
      splitLoop maxLen (t.drop maxLen)
  else if t = [] then [] else [t]
termination_by t.length
decreasing_by
  rename_i h
  simp only [List.length_drop]
  omega

/-- `SplitToMaxBits`: empty text yields the empty list; otherwise Go
computes `maxPartsCount := len(text)/maxPartLength + 1` — a division by
zero panic when no character fits (`maxPartLength = 0`) — and slices
`remainingText[0:maxPartLength]` — a slice-bounds panic when
`maxPartLength` is negative.  Both panics are modelled as `none`. -/
def splitToMaxBits (encoding : Nat) (maxPDUBits : Int) (text : List Nat) :
    Option (List (List Nat)) :=
  if text = [] then some []
  else
    let maxPartLength := bitsToTextBytes encoding maxPDUBits
    if maxPartLength ≤ 0 then none
    else some (splitLoop maxPartLength.toNat text)

theorem splitLoop_spec (maxLen : Nat) (hm : 1 ≤ maxLen) :
    ∀ n (t : List Nat), t.length ≤ n → t ≠ [] →
      (splitLoop maxLen t).flatten = t ∧
      (∀ p ∈ (splitLoop maxLen t).dropLast, p.length = maxLen) ∧
      (∀ p ∈ splitLoop maxLen t, 1 ≤ p.length ∧ p.length ≤ maxLen) ∧
      splitLoop maxLen t ≠ [] := by
  intro n
  induction n with
  | zero =>
    intro t hlen hne
    interval_cases h : t.length
    · exact absurd (List.length_eq_zero.1 h) hne
  | succ n ih =>
    intro t hlen hne
    have hlen0 : t.length ≠ 0 := fun h => hne (List.length_eq_zero.1 h)
    by_cases hguard : maxLen < t.length ∧ 0 < maxLen
    · have htake : t.take maxLen ≠ [] := by
        intro h
        have := congrArg List.length h
        simp only [List.length_take, List.length_nil] at this
        omega
      have hdrop : t.drop maxLen ≠ [] := by
        intro h
        have := congrArg List.length h
        simp at this
        omega
      have hdlen : (t.drop maxLen).length ≤ n := by
        simp only [List.length_drop]
        omega
      obtain ⟨ihj, ihd, ihb, ihne⟩ := ih (t.drop maxLen) hdlen hdrop
      have hrw : splitLoop maxLen t =
          t.take maxLen :: splitLoop maxLen (t.drop maxLen) := by
        rw [splitLoop, if_pos hguard, if_neg htake]
        rfl
      have htlen : (t.take maxLen).length = maxLen := by
        simp only [List.length_take]
        omega
      refine ⟨?_, ?_, ?_, by simp [hrw]⟩
      · rw [hrw]
        simp only [List.flatten_cons, ihj]
        exact List.take_append_drop maxLen t
      · rw [hrw]
        obtain ⟨r, rs, hrs⟩ :
            ∃ r rs, splitLoop maxLen (t.drop maxLen) = r :: rs := by
          match hx : splitLoop maxLen (t.drop maxLen) with
          | [] => exact absurd hx ihne
          | r :: rs => exact ⟨r, rs, rfl⟩
        rw [hrs]
        rw [show t.take maxLen :: r :: rs = [t.take maxLen] ++ r :: rs
          from rfl]
        rw [List.dropLast_append_cons]
        intro p hp
        rcases List.mem_append.1 hp with h | h
        · simp at h
          rw [h, htlen]
        · rw [← hrs] at h
          exact ihd p h
      · rw [hrw]
        intro p hp
        rcases List.mem_cons.1 hp with h | h
        · rw [h, htlen]
          omega
        · exact ihb p h
    · have hrw : splitLoop maxLen t = [t] := by
        rw [splitLoop, if_neg hguard, if_neg hne]
      rw [hrw]
      have hlen' : t.length ≤ maxLen := by
        push_neg at hguard
        have := hguard
        by_cases h : maxLen < t.length
        · omega
        · omega
      refine ⟨by simp, by simp, ?_, by simp⟩
      intro p hp
      simp at hp
      subst hp
      have : p.length ≠ 0 := by
        intro h
        exact hne (List.length_eq_zero.1 h)
      omega

/-- C8 (amended): whenever at least one character fits into `max_bits`
(`⌊max_bits/7⌋ ≥ 1` for Packed7Bit, `⌊max_bits/8⌋ ≥ 1` otherwise),
`SplitToMaxBits` returns the parts in text order with their concatenation
equal to the input text; every part except possibly the last has exactly
the maximum number of fitting characters and every part has at least one
and at most that many; the empty text yields the empty list.  When no
character fits and the text is non-empty the Go code panics — see the
counterexample. -/
theorem splitToMaxBits_spec (encoding : Nat) (maxPDUBits : Int)
    (text : List Nat) (hfit : 1 ≤ bitsToTextBytes encoding maxPDUBits) :
    ∃ parts, splitToMaxBits encoding maxPDUBits text = some parts ∧
      parts.flatten = text ∧
      (∀ p ∈ parts.dropLast,
        p.length = (bitsToTextBytes encoding maxPDUBits).toNat) ∧
      (∀ p ∈ parts, 1 ≤ p.length ∧
        p.length ≤ (bitsToTextBytes encoding maxPDUBits).toNat) ∧
      (parts = [] ↔ text = []) := by
  by_cases htext : text = []
  · refine ⟨[], ?_, by simp [htext], by simp, by simp,
      ⟨fun _ => htext, fun _ => rfl⟩⟩
    rw [splitToMaxBits, if_pos htext]
  · have hmax : 1 ≤ (bitsToTextBytes encoding maxPDUBits).toNat := by
      omega
    obtain ⟨hj, hd, hb, hne⟩ := splitLoop_spec
      (bitsToTextBytes encoding maxPDUBits).toNat hmax text.length text
      le_rfl htext
    refine ⟨splitLoop (bitsToTextBytes encoding maxPDUBits).toNat text,
      ?_, hj, hd, hb, by simp [hne, htext]⟩
    rw [splitToMaxBits, if_neg htext]
    simp only []
    rw [if_neg (by omega)]

/-- Witness for `splitToMaxBits_spec`: 16 bits of ISO8859-1 fit 2
characters, splitting a 3-character text. -/
theorem splitToMaxBits_spec_witness :
    ∃ parts, splitToMaxBits 1 16 (bstr "abc") = some parts ∧
      parts.flatten = bstr "abc" ∧
      (∀ p ∈ parts.dropLast, p.length = (bitsToTextBytes 1 16).toNat) ∧
      (∀ p ∈ parts, 1 ≤ p.length ∧
        p.length ≤ (bitsToTextBytes 1 16).toNat) ∧
      (parts = [] ↔ bstr "abc" = []) :=
  splitToMaxBits_spec 1 16 (bstr "abc") (by decide)

/-- C8 counterexample: with `max_bits = 0` (no character fits) and a
non-empty text, `SplitToMaxBits` panics (division by zero computing
`maxPartsCount`) instead of returning a part list. -/
theorem splitToMaxBits_zero_bits_counterexample :
    splitToMaxBits 1 0 (bstr "a") = none := by
  rfl

end TetraPei
